import Mathlib

/-!
Verification development for the SWFOC extender bridge daemon: a shallow
embedding of the native mutation plugins (economy, global toggle, build patch),
the process-mutation helpers (address parsing, protected writes), the
capability-snapshot merge of the bridge host, and the flat JSON string-map
codec, together with theorems about their specified properties.
-/

namespace SwfocExtender

/-! ## Bytes and target-process memory

Cross-process memory is modelled as a byte-addressed store `Nat → Nat`.
Operating-system calls (OpenProcess, ReadProcessMemory, WriteProcessMemory,
VirtualProtectEx) succeed or fail according to an oracle carried by the world;
a failed call leaves memory unchanged.
-/

abbrev Bytes := List Nat

def readBytes (mem : Nat → Nat) (addr len : Nat) : Bytes :=
  (List.range len).map fun i => mem (addr + i)

def writeBytes (mem : Nat → Nat) (addr : Nat) (bs : Bytes) : Nat → Nat :=
  fun a => if addr ≤ a ∧ a < addr + bs.length then bs.getD (a - addr) 0 else mem a

/-- Outcomes of the operating-system calls made during one plugin execution. -/
structure OsOracle where
  openOk : Bool
  readOk : Bool
  protectOk : Bool
  writeOk : Bool
  restoreOk : Bool

/-- The target process seen by the daemon: its memory plus the OS oracle. -/
structure World where
  mem : Nat → Nat
  os : OsOracle

def allOk : OsOracle := ⟨true, true, true, true, true⟩

@[simp] theorem length_readBytes (mem : Nat → Nat) (addr len : Nat) :
    (readBytes mem addr len).length = len := by
  simp [readBytes]

theorem getD_readBytes (mem : Nat → Nat) (addr len j : Nat) (hj : j < len) :
    (readBytes mem addr len).getD j 0 = mem (addr + j) := by
  simp [readBytes, List.getD_eq_getElem?_getD, List.getElem?_map, List.getElem?_range hj]

theorem writeBytes_writeBytes_readBytes (mem : Nat → Nat) (addr len : Nat)
    (bs : Bytes) (hbs : bs.length = len) :
    ∀ a, writeBytes (writeBytes mem addr bs) addr (readBytes mem addr len) a = mem a := by
  intro a
  by_cases h : addr ≤ a ∧ a < addr + len
  · have hlt : a - addr < len := by omega
    have haddr : addr + (a - addr) = a := by omega
    simp only [writeBytes, length_readBytes, if_pos h]
    rw [getD_readBytes mem addr len _ hlt, haddr]
  · simp only [writeBytes, length_readBytes, hbs, if_neg h]

/-! ## Association-list maps

`std::map` / `std::unordered_map` operations used by the plugins, modelled on
association lists: exact-key lookup, `operator[]` assignment (replace the
existing entry or add one), and `erase(key)` (afterwards no entry with that
key remains).
-/

def lookupKey {α : Type} (k : String) : List (String × α) → Option α
  | [] => none
  | (k₁, v) :: t => if k₁ = k then some v else lookupKey k t

def upsertKey {α : Type} (k : String) (v : α) : List (String × α) → List (String × α)
  | [] => [(k, v)]
  | (k₁, v₁) :: t => if k₁ = k then (k, v) :: t else (k₁, v₁) :: upsertKey k v t

def removeKey {α : Type} (k : String) (l : List (String × α)) : List (String × α) :=
  l.filter fun p => p.1 ≠ k

@[simp] theorem lookupKey_nil {α : Type} (k : String) : lookupKey k ([] : List (String × α)) = none := rfl

theorem lookupKey_upsertKey_self {α : Type} (k : String) (v : α) (l : List (String × α)) :
    lookupKey k (upsertKey k v l) = some v := by
  induction l with
  | nil => simp [upsertKey, lookupKey]
  | cons h t ih =>
    by_cases hk : h.1 = k
    · simp [upsertKey, hk, lookupKey]
    · simpa [upsertKey, hk, lookupKey] using ih

theorem lookupKey_upsertKey_ne {α : Type} (k k₁ : String) (v : α) (l : List (String × α))
    (hne : k₁ ≠ k) : lookupKey k₁ (upsertKey k v l) = lookupKey k₁ l := by
  induction l with
  | nil => simp [upsertKey, lookupKey, Ne.symm hne]
  | cons h t ih =>
    by_cases hk : h.1 = k
    · simp [upsertKey, hk, lookupKey, Ne.symm hne, hne]
    · by_cases hk₁ : h.1 = k₁ <;>
        simp [upsertKey, hk, lookupKey, hk₁, ih, hne, Ne.symm hne]

theorem lookupKey_removeKey_self {α : Type} (k : String) (l : List (String × α)) :
    lookupKey k (removeKey k l) = none := by
  induction l with
  | nil => simp [removeKey]
  | cons h t ih =>
    by_cases hk : h.1 = k
    · simpa [removeKey, List.filter_cons, hk] using ih
    · simpa [removeKey, List.filter_cons, hk, lookupKey] using ih

theorem lookupKey_removeKey_ne {α : Type} (k k₁ : String) (l : List (String × α))
    (hne : k₁ ≠ k) : lookupKey k₁ (removeKey k l) = lookupKey k₁ l := by
  induction l with
  | nil => simp [removeKey]
  | cons h t ih =>
    by_cases hk : h.1 = k
    · have h₁ : removeKey k (h :: t) = removeKey k t := by
        simp [removeKey, List.filter_cons, hk]
      rw [h₁, ih, lookupKey]
      simp [hk, Ne.symm hne]
    · have h₁ : removeKey k (h :: t) = h :: removeKey k t := by
        simp [removeKey, List.filter_cons, hk]
      by_cases hk₁ : h.1 = k₁
      · rw [h₁, lookupKey, lookupKey]
        simp [hk₁]
      · rw [h₁, lookupKey, lookupKey]
        simp [hk₁, ih]

/-! ## ProcessMutationHelpers

`TryParseAddress`, `TryReadBytes`, `TryWriteBytesPatchSafe` and the data-mode
branch of `TryWriteValue`, from
`SwfocExtender.Plugins/include/swfoc_extender/plugins/ProcessMutationHelpers.hpp`.
-/

def isHexDigitChar (c : Char) : Bool :=
  (decide ('0' ≤ c) && decide (c ≤ '9')) ||
  (decide ('a' ≤ c) && decide (c ≤ 'f')) ||
  (decide ('A' ≤ c) && decide (c ≤ 'F'))

def hexDigitVal (c : Char) : Nat :=
  if '0' ≤ c ∧ c ≤ '9' then c.toNat - '0'.toNat
  else if 'a' ≤ c ∧ c ≤ 'f' then c.toNat - 'a'.toNat + 10
  else if 'A' ≤ c ∧ c ≤ 'F' then c.toNat - 'A'.toNat + 10
  else 0

/-- `std::from_chars(begin, end, parsed, 16)` followed by the `ptr == end`
check: the whole text must be hexadecimal digits, and the value must fit an
`unsigned long long` or the parse reports out-of-range. -/
def fromCharsHex (l : List Char) : Option Nat :=
  if l ≠ [] ∧ l.all isHexDigitChar then
    let v := l.foldl (fun acc c => 16 * acc + hexDigitVal c) 0
    if v < 2 ^ 64 then some v else none
  else none

/-- Strips a leading `0x` / `0X` marker (`rfind("0x", 0) == 0`). -/
def stripHexMarker : List Char → List Char
  | '0' :: 'x' :: r => r
  | '0' :: 'X' :: r => r
  | l => l

def TryParseAddressL (l : List Char) : Option Nat :=
  if l = [] then none
  else
    let normalized := stripHexMarker l
    if normalized = [] then none else fromCharsHex normalized

def TryParseAddress (s : String) : Option Nat :=
  TryParseAddressL s.data

def TryReadBytes (w : World) (pid : Int) (addr len : Nat) : Option Bytes :=
  if pid ≤ 0 ∨ addr = 0 ∨ len = 0 then none
  else if w.os.openOk && w.os.readOk then some (readBytes w.mem addr len)
  else none

/-- Result of `TryWriteBytesPatchSafe` together with the memory it leaves
behind and the write-operation diagnostics it fills in. `restoreAttempted`
records whether `detail::TryRestorePatchProtection` was invoked. -/
structure PatchWriteOutcome where
  ok : Bool
  mem : Nat → Nat
  restoreAttempted : Bool
  diagWriteMode : String
  diagLen : String
  diagRestoreProtectOk : String

def TryWriteBytesPatchSafe (w : World) (pid : Int) (addr : Nat) (bs : Bytes) :
    PatchWriteOutcome :=
  let base : PatchWriteOutcome :=
    { ok := false, mem := w.mem, restoreAttempted := false,
      diagWriteMode := "patch", diagLen := toString bs.length,
      diagRestoreProtectOk := "false" }
  if pid ≤ 0 ∨ addr = 0 ∨ bs.length = 0 then base
  else if ¬ w.os.openOk then base
  else if ¬ w.os.protectOk then base
  else
    { base with
      ok := w.os.writeOk && w.os.restoreOk,
      mem := if w.os.writeOk then writeBytes w.mem addr bs else w.mem,
      restoreAttempted := true,
      diagRestoreProtectOk := if w.os.restoreOk then "true" else "false" }

/-- The `WriteMutationMode::Data` branch of `TryWriteValue`: validates only
process id and address, opens the process, writes without protection changes.
Returns the updated world on success. -/
def tryWriteDataBytes (w : World) (pid : Int) (addr : Nat) (bs : Bytes) : Option World :=
  if pid ≤ 0 ∨ addr = 0 then none
  else if ¬ w.os.openOk then none
  else if w.os.writeOk then some { w with mem := writeBytes w.mem addr bs }
  else none

/-- Two's-complement image of a C++ `int32_t` as an unsigned 32-bit value. -/
def int32ToUInt32 (v : Int) : Nat :=
  ((v % 4294967296 + 4294967296) % 4294967296).toNat

/-- Little-endian byte image of a 4-byte signed integer write. -/
def encodeInt32LE (v : Int) : Bytes :=
  let u := int32ToUInt32 v
  [u % 256, u / 256 % 256, u / 65536 % 256, u / 16777216 % 256]

def encodeUInt8 (v : Nat) : Bytes := [v % 256]

@[simp] theorem length_encodeInt32LE (v : Int) : (encodeInt32LE v).length = 4 := rfl

@[simp] theorem length_encodeUInt8 (v : Nat) : (encodeUInt8 v).length = 1 := rfl

def clampInt (v lo hi : Int) : Int :=
  if v < lo then lo else if hi < v then hi else v

/-! ## Plugin contracts

`PluginRequest` / `PluginResult` / `CapabilityState` from `PluginContracts.hpp`.
Anchor and diagnostics maps are association lists.
-/

structure PluginRequest where
  featureId : String := ""
  profileId : String := ""
  intValue : Int := 0
  boolValue : Bool := false
  enable : Bool := false
  lockValue : Bool := false
  processId : Int := 0
  anchors : List (String × String) := []

structure PluginResult where
  succeeded : Bool := false
  reasonCode : String := "CAPABILITY_UNKNOWN"
  hookState : String := "none"
  message : String := ""
  diagnostics : List (String × String) := []

structure CapabilityState where
  available : Bool := false
  state : String := "Unknown"
  reasonCode : String := "CAPABILITY_BACKEND_UNAVAILABLE"

abbrev CapabilitySnapshot := List (String × CapabilityState)

/-- Anchor resolution shared by the plugins: walk the candidate-name list in
priority order and return the first present, non-empty anchor entry together
with its key. -/
def FindAnchorIn (anchors : List (String × String)) : List String → Option (String × String)
  | [] => none
  | c :: rest =>
    match lookupKey c anchors with
    | some v => if v ≠ "" then some (c, v) else FindAnchorIn anchors rest
    | none => FindAnchorIn anchors rest

def BoolToString (b : Bool) : String := if b then "true" else "false"

/-! ## EconomyPlugin (`set_credits`), from `EconomyPlugin.cpp` -/

namespace Economy

def kCreditsAnchors : List String := ["credits", "set_credits"]

def FindCreditsAnchor (r : PluginRequest) : Option (String × String) :=
  FindAnchorIn r.anchors kCreditsAnchors

def BuildUnsupportedFeatureResult (r : PluginRequest) : PluginResult :=
  { succeeded := false, reasonCode := "CAPABILITY_REQUIRED_MISSING", hookState := "DENIED",
    message := "Economy plugin only handles set_credits.",
    diagnostics := [("featureId", r.featureId)] }

def BuildNegativeValueResult (r : PluginRequest) : PluginResult :=
  { succeeded := false, reasonCode := "SAFETY_MUTATION_BLOCKED", hookState := "DENIED",
    message := "intValue must be non-negative for set_credits.",
    diagnostics := [("intValue", toString r.intValue)] }

def BuildMissingAnchorResult (r : PluginRequest) : PluginResult :=
  { succeeded := false, reasonCode := "CAPABILITY_REQUIRED_MISSING", hookState := "DENIED",
    message := "anchors map missing required credits anchor.",
    diagnostics := [("featureId", r.featureId), ("requiredField", "anchors"),
                    ("anchorCount", toString r.anchors.length)] }

def BuildInvalidAnchorResult (r : PluginRequest) (anchor : String × String) : PluginResult :=
  { succeeded := false, reasonCode := "SAFETY_MUTATION_BLOCKED", hookState := "DENIED",
    message := "credits anchor value is invalid.",
    diagnostics := [("featureId", r.featureId), ("anchorKey", anchor.1),
                    ("anchorValue", anchor.2)] }

def BuildWriteFailureResult (r : PluginRequest) (anchor : String × String) : PluginResult :=
  { succeeded := false, reasonCode := "SAFETY_MUTATION_BLOCKED", hookState := "DENIED",
    message := "credits process write failed.",
    diagnostics := [("featureId", r.featureId), ("anchorKey", anchor.1),
                    ("anchorValue", anchor.2), ("processMutationApplied", "false")] }

def BuildMutationSuccessResult (r : PluginRequest) (anchor : String × String)
    (appliedValue : Int) : PluginResult :=
  { succeeded := true, reasonCode := "CAPABILITY_PROBE_PASS",
    hookState := if r.lockValue then "HOOK_LOCK" else "HOOK_ONESHOT",
    message := "Credits value applied through extender plugin.",
    diagnostics := [("featureId", r.featureId), ("processId", toString r.processId),
                    ("anchorKey", anchor.1), ("anchorValue", anchor.2),
                    ("intValue", toString appliedValue),
                    ("lockValue", BoolToString r.lockValue),
                    ("processMutationApplied", "true")] }

structure State where
  lockEnabled : Bool := false
  lockedCreditsValue : Int := 0

/-- `EconomyPlugin::execute`. Note: it validates the feature id, then the
value sign, then anchor resolution and parsing — it performs no `processId`
check of its own; the data-mode write primitive rejects a non-positive id. -/
def execute (st : State) (r : PluginRequest) (w : World) : PluginResult × State × World :=
  if r.featureId ≠ "set_credits" then (BuildUnsupportedFeatureResult r, st, w)
  else if r.intValue < 0 then (BuildNegativeValueResult r, st, w)
  else
    match FindCreditsAnchor r with
    | none => (BuildMissingAnchorResult r, st, w)
    | some anchor =>
      match TryParseAddress anchor.2 with
      | none => (BuildInvalidAnchorResult r anchor, st, w)
      | some targetAddress =>
        match tryWriteDataBytes w r.processId targetAddress (encodeInt32LE r.intValue) with
        | none => (BuildWriteFailureResult r anchor, st, w)
        | some w₁ =>
          (BuildMutationSuccessResult r anchor r.intValue,
           { lockEnabled := r.lockValue, lockedCreditsValue := r.intValue }, w₁)

def capabilitySnapshot : CapabilitySnapshot :=
  [("set_credits", { available := true, state := "Verified", reasonCode := "CAPABILITY_PROBE_PASS" })]

end Economy

/-! ## GlobalTogglePlugin (`freeze_timer`, `toggle_fog_reveal`, `toggle_ai`),
from `GlobalTogglePlugin.cpp` -/

namespace GlobalToggle

def kFreezeTimerAnchors : List String := ["game_timer_freeze", "freeze_timer"]
def kFogRevealAnchors : List String := ["fog_reveal", "toggle_fog_reveal"]
def kAiAnchors : List String := ["ai_enabled", "toggle_ai"]

def IsGlobalToggleFeature (featureId : String) : Bool :=
  featureId = "freeze_timer" || featureId = "toggle_fog_reveal" || featureId = "toggle_ai"

def AnchorCandidates (featureId : String) : List String :=
  if featureId = "freeze_timer" then kFreezeTimerAnchors
  else if featureId = "toggle_fog_reveal" then kFogRevealAnchors
  else kAiAnchors

def FindAnchor (r : PluginRequest) (featureId : String) : Option (String × String) :=
  FindAnchorIn r.anchors (AnchorCandidates featureId)

def BuildUnsupportedFeatureResult (r : PluginRequest) : PluginResult :=
  { succeeded := false, reasonCode := "CAPABILITY_REQUIRED_MISSING", hookState := "DENIED",
    message := "Global toggle plugin only handles freeze_timer, toggle_fog_reveal, and toggle_ai.",
    diagnostics := [("featureId", r.featureId)] }

def BuildMissingProcessResult (r : PluginRequest) : PluginResult :=
  { succeeded := false, reasonCode := "CAPABILITY_REQUIRED_MISSING", hookState := "DENIED",
    message := "processId is required for global toggle mutations.",
    diagnostics := [("featureId", r.featureId), ("requiredField", "processId"),
                    ("processId", toString r.processId)] }

def BuildMissingAnchorResult (r : PluginRequest) : PluginResult :=
  { succeeded := false, reasonCode := "CAPABILITY_REQUIRED_MISSING", hookState := "DENIED",
    message := "anchors map missing required symbol anchor for feature.",
    diagnostics := [("featureId", r.featureId), ("requiredField", "anchors"),
                    ("anchorCount", toString r.anchors.length)] }

def BuildInvalidAnchorResult (r : PluginRequest) (anchor : String × String) : PluginResult :=
  { succeeded := false, reasonCode := "SAFETY_MUTATION_BLOCKED", hookState := "DENIED",
    message := "anchor value could not be parsed as target address.",
    diagnostics := [("featureId", r.featureId), ("anchorKey", anchor.1),
                    ("anchorValue", anchor.2), ("processMutationApplied", "false")] }

def BuildWriteFailureResult (r : PluginRequest) (anchor : String × String)
    (boolValue : Bool) : PluginResult :=
  { succeeded := false, reasonCode := "SAFETY_MUTATION_BLOCKED", hookState := "DENIED",
    message := "global toggle process write failed.",
    diagnostics := [("featureId", r.featureId), ("processId", toString r.processId),
                    ("anchorKey", anchor.1), ("anchorValue", anchor.2),
                    ("boolValue", BoolToString boolValue),
                    ("processMutationApplied", "false")] }

def BuildMutationSuccessResult (r : PluginRequest) (anchor : String × String)
    (boolValue : Bool) : PluginResult :=
  { succeeded := true, reasonCode := "CAPABILITY_PROBE_PASS", hookState := "HOOK_ONESHOT",
    message := "Global toggle value applied through extender plugin.",
    diagnostics := [("featureId", r.featureId), ("processId", toString r.processId),
                    ("anchorKey", anchor.1), ("anchorValue", anchor.2),
                    ("boolValue", BoolToString boolValue),
                    ("processMutationApplied", "true")] }

structure State where
  freezeTimerEnabled : Bool := false
  fogRevealEnabled : Bool := false
  aiEnabled : Bool := false

/-- The per-feature atomic store performed at lines 174–180 of the source. -/
def storeToggle (st : State) (featureId : String) (b : Bool) : State :=
  if featureId = "freeze_timer" then { st with freezeTimerEnabled := b }
  else if featureId = "toggle_fog_reveal" then { st with fogRevealEnabled := b }
  else { st with aiEnabled := b }

/-- `GlobalTogglePlugin::execute`. The atomic toggle is stored after anchor
resolution but before address parsing and the process write. -/
def execute (st : State) (r : PluginRequest) (w : World) : PluginResult × State × World :=
  if ¬ IsGlobalToggleFeature r.featureId then (BuildUnsupportedFeatureResult r, st, w)
  else if r.processId ≤ 0 then (BuildMissingProcessResult r, st, w)
  else
    match FindAnchor r r.featureId with
    | none => (BuildMissingAnchorResult r, st, w)
    | some anchor =>
      let nextValue := r.boolValue
      let st₁ := storeToggle st r.featureId nextValue
      match TryParseAddress anchor.2 with
      | none => (BuildInvalidAnchorResult r anchor, st₁, w)
      | some targetAddress =>
        match tryWriteDataBytes w r.processId targetAddress
            (encodeUInt8 (if nextValue then 1 else 0)) with
        | none => (BuildWriteFailureResult r anchor nextValue, st₁, w)
        | some w₁ => (BuildMutationSuccessResult r anchor nextValue, st₁, w₁)

def capabilitySnapshot : CapabilitySnapshot :=
  [("freeze_timer", { available := true, state := "Verified", reasonCode := "CAPABILITY_PROBE_PASS" }),
   ("toggle_ai", { available := true, state := "Verified", reasonCode := "CAPABILITY_PROBE_PASS" }),
   ("toggle_fog_reveal", { available := true, state := "Verified", reasonCode := "CAPABILITY_PROBE_PASS" })]

end GlobalToggle

/-! ## BuildPatchPlugin (`set_unit_cap`, `toggle_instant_build_patch`),
from `BuildPatchPlugin.cpp` -/

namespace BuildPatch

def kUnitCapAnchors : List String := ["unit_cap", "set_unit_cap"]
def kInstantBuildAnchors : List String :=
  ["instant_build_patch_injection", "instant_build_patch", "instant_build",
   "toggle_instant_build_patch"]

def kMinUnitCap : Int := 1
def kMaxUnitCap : Int := 100000

def IsBuildPatchFeature (featureId : String) : Bool :=
  featureId = "set_unit_cap" || featureId = "toggle_instant_build_patch"

def AnchorCandidates (featureId : String) : List String :=
  if featureId = "set_unit_cap" then kUnitCapAnchors else kInstantBuildAnchors

def FindAnchor (r : PluginRequest) (featureId : String) : Option (String × String) :=
  FindAnchorIn r.anchors (AnchorCandidates featureId)

def IsUnitCapOutOfBounds (r : PluginRequest) (enablePatch : Bool) : Prop :=
  enablePatch = true ∧ (r.intValue < kMinUnitCap ∨ kMaxUnitCap < r.intValue)

instance (r : PluginRequest) (e : Bool) : Decidable (IsUnitCapOutOfBounds r e) := by
  unfold IsUnitCapOutOfBounds; infer_instance

def BuildUnsupportedFeatureResult (r : PluginRequest) : PluginResult :=
  { succeeded := false, reasonCode := "CAPABILITY_REQUIRED_MISSING", hookState := "DENIED",
    message := "Build patch plugin only handles set_unit_cap and toggle_instant_build_patch.",
    diagnostics := [("featureId", r.featureId)] }

def BuildMissingProcessResult (r : PluginRequest) : PluginResult :=
  { succeeded := false, reasonCode := "CAPABILITY_REQUIRED_MISSING", hookState := "DENIED",
    message := "processId is required for build patch mutations.",
    diagnostics := [("featureId", r.featureId), ("requiredField", "processId"),
                    ("processId", toString r.processId)] }

def BuildInvalidUnitCapResult (r : PluginRequest) : PluginResult :=
  { succeeded := false, reasonCode := "SAFETY_MUTATION_BLOCKED", hookState := "DENIED",
    message := "set_unit_cap requires intValue within safe bounds when enabled.",
    diagnostics := [("featureId", r.featureId), ("intValue", toString r.intValue),
                    ("minIntValue", toString kMinUnitCap),
                    ("maxIntValue", toString kMaxUnitCap)] }

def BuildMissingAnchorResult (r : PluginRequest) : PluginResult :=
  { succeeded := false, reasonCode := "CAPABILITY_REQUIRED_MISSING", hookState := "DENIED",
    message := "anchors map missing required symbol anchor for build patch operation.",
    diagnostics := [("featureId", r.featureId), ("requiredField", "anchors"),
                    ("anchorCount", toString r.anchors.length)] }

def BuildInvalidAnchorResult (r : PluginRequest) (anchor : String × String) : PluginResult :=
  { succeeded := false, reasonCode := "SAFETY_MUTATION_BLOCKED", hookState := "DENIED",
    message := "anchor value could not be parsed as target address.",
    diagnostics := [("featureId", r.featureId), ("anchorKey", anchor.1),
                    ("anchorValue", anchor.2), ("processMutationApplied", "false")] }

def BuildPatchRestoreStateMissingResult (r : PluginRequest) (anchor : String × String)
    (restoreKey : String) : PluginResult :=
  { succeeded := false, reasonCode := "PATCH_RESTORE_STATE_MISSING", hookState := "DENIED",
    message := "Build patch restore was requested without a cached pre-patch snapshot.",
    diagnostics := [("featureId", r.featureId), ("processId", toString r.processId),
                    ("anchorKey", anchor.1), ("anchorValue", anchor.2),
                    ("intValue", toString r.intValue), ("restoreKey", restoreKey),
                    ("processMutationApplied", "false"), ("operation", "restore_missing")] }

def BuildWriteFailureResult (r : PluginRequest) (anchor : String × String)
    (enablePatch : Bool) (out : PatchWriteOutcome) : PluginResult :=
  { succeeded := false, reasonCode := "SAFETY_MUTATION_BLOCKED", hookState := "DENIED",
    message := "build patch process write failed.",
    diagnostics := [("featureId", r.featureId), ("processId", toString r.processId),
                    ("anchorKey", anchor.1), ("anchorValue", anchor.2),
                    ("enable", BoolToString enablePatch),
                    ("intValue", toString r.intValue),
                    ("writeMode", out.diagWriteMode), ("len", out.diagLen),
                    ("restoreProtectOk", out.diagRestoreProtectOk),
                    ("processMutationApplied", "false")] }

def BuildReadFailureResult (r : PluginRequest) (anchor : String × String)
    (operation : String) : PluginResult :=
  { succeeded := false, reasonCode := "SAFETY_MUTATION_BLOCKED", hookState := "DENIED",
    message := "build patch memory read failed.",
    diagnostics := [("featureId", r.featureId), ("processId", toString r.processId),
                    ("anchorKey", anchor.1), ("anchorValue", anchor.2),
                    ("operation", operation), ("processMutationApplied", "false")] }

def BuildMutationSuccessResult (r : PluginRequest) (anchor : String × String)
    (enablePatch : Bool) (appliedValue : Int) (reasonCode message operation restoreKey : String)
    (out : PatchWriteOutcome) : PluginResult :=
  { succeeded := true, reasonCode := reasonCode, hookState := "HOOK_ONESHOT",
    message := message,
    diagnostics := [("featureId", r.featureId), ("processId", toString r.processId),
                    ("anchorKey", anchor.1), ("anchorValue", anchor.2),
                    ("enable", BoolToString enablePatch),
                    ("intValue", toString appliedValue), ("restoreKey", restoreKey),
                    ("operation", operation), ("writeMode", out.diagWriteMode),
                    ("len", out.diagLen), ("restoreProtectOk", out.diagRestoreProtectOk),
                    ("processMutationApplied", "true")] }

structure State where
  unitCapPatchEnabled : Bool := false
  instantBuildPatchEnabled : Bool := false
  unitCapValue : Int := 0
  restoreBytesByKey : List (String × Bytes) := []

def BuildRestoreKey (r : PluginRequest) (anchorKey : String) (address : Nat) : String :=
  toString r.processId ++ "|" ++ r.featureId ++ "|" ++ anchorKey ++ "|" ++ toString address

def ApplyUnitCapState (st : State) (enablePatch : Bool) (unitCapValue : Int) : State :=
  let st₁ := { st with unitCapPatchEnabled := enablePatch }
  if ¬ enablePatch then st₁ else { st₁ with unitCapValue := unitCapValue }

def ApplyInstantBuildState (st : State) (enablePatch : Bool) : State :=
  { st with instantBuildPatchEnabled := enablePatch }

/-- `BuildPatchPlugin::execute`. -/
def execute (st : State) (r : PluginRequest) (w : World) : PluginResult × State × World :=
  if ¬ IsBuildPatchFeature r.featureId then (BuildUnsupportedFeatureResult r, st, w)
  else if r.processId ≤ 0 then (BuildMissingProcessResult r, st, w)
  else
    let resolvedAnchor := FindAnchor r r.featureId
    let enablePatch := r.enable || r.boolValue
    if r.featureId = "set_unit_cap" ∧ IsUnitCapOutOfBounds r enablePatch then
      (BuildInvalidUnitCapResult r, st, w)
    else
      match resolvedAnchor with
      | none => (BuildMissingAnchorResult r, st, w)
      | some anchor =>
        match TryParseAddress anchor.2 with
        | none => (BuildInvalidAnchorResult r anchor, st, w)
        | some targetAddress =>
          let restoreKey := BuildRestoreKey r anchor.1 targetAddress
          if ¬ enablePatch then
            match lookupKey restoreKey st.restoreBytesByKey with
            | none => (BuildPatchRestoreStateMissingResult r anchor restoreKey, st, w)
            | some restoreBytes =>
              let out := TryWriteBytesPatchSafe w r.processId targetAddress restoreBytes
              if ¬ out.ok then
                (BuildWriteFailureResult r anchor enablePatch out, st, { w with mem := out.mem })
              else
                let st₁ := { st with restoreBytesByKey := removeKey restoreKey st.restoreBytesByKey }
                let st₂ := if r.featureId = "set_unit_cap" then
                    ApplyUnitCapState st₁ enablePatch r.intValue
                  else ApplyInstantBuildState st₁ enablePatch
                (BuildMutationSuccessResult r anchor enablePatch
                   (if r.featureId = "set_unit_cap" then r.intValue else 0)
                   "PATCH_RESTORE_APPLIED"
                   "Build patch restore applied through extender plugin."
                   "restore" restoreKey out,
                 st₂, { w with mem := out.mem })
          else
            let writeLength := if r.featureId = "set_unit_cap" then 4 else 1
            match TryReadBytes w r.processId targetAddress writeLength with
            | none => (BuildReadFailureResult r anchor "capture_original", st, w)
            | some originalBytes =>
              let st₁ := { st with
                restoreBytesByKey := upsertKey restoreKey originalBytes st.restoreBytesByKey }
              if r.featureId = "set_unit_cap" then
                let clamped := clampInt r.intValue kMinUnitCap kMaxUnitCap
                let out := TryWriteBytesPatchSafe w r.processId targetAddress (encodeInt32LE clamped)
                if ¬ out.ok then
                  (BuildWriteFailureResult r anchor enablePatch out, st₁, { w with mem := out.mem })
                else
                  (BuildMutationSuccessResult r anchor enablePatch clamped
                     "CAPABILITY_PROBE_PASS"
                     "Build patch value applied through extender plugin."
                     "apply" restoreKey out,
                   ApplyUnitCapState st₁ enablePatch r.intValue, { w with mem := out.mem })
              else
                let out := TryWriteBytesPatchSafe w r.processId targetAddress (encodeUInt8 1)
                if ¬ out.ok then
                  (BuildWriteFailureResult r anchor enablePatch out, st₁, { w with mem := out.mem })
                else
                  (BuildMutationSuccessResult r anchor enablePatch 1
                     "CAPABILITY_PROBE_PASS"
                     "Build patch value applied through extender plugin."
                     "apply" restoreKey out,
                   ApplyInstantBuildState st₁ enablePatch, { w with mem := out.mem })

def capabilitySnapshot : CapabilitySnapshot :=
  [("set_unit_cap", { available := true, state := "Verified", reasonCode := "CAPABILITY_PROBE_PASS" }),
   ("toggle_instant_build_patch", { available := true, state := "Verified", reasonCode := "CAPABILITY_PROBE_PASS" })]

end BuildPatch

/-! ## Bridge host capability probe, from `BridgeHostMain.cpp` -/

namespace BridgeHost

/-- `kSupportedFeatures` (BridgeHostMain.cpp lines 39–45): the six feature ids
the host dispatches to plugins. -/
def kSupportedFeatures : List String :=
  ["freeze_timer", "toggle_fog_reveal", "toggle_ai", "set_unit_cap",
   "toggle_instant_build_patch", "set_credits"]

/-- The fixed feature catalog as declared by the specification (§6): the six
dispatchable features plus `health`, `probe_capabilities` and the three
helper-invocation features. -/
def featureCatalogSpec : List String :=
  ["health", "probe_capabilities", "set_credits", "freeze_timer", "toggle_fog_reveal",
   "toggle_ai", "set_unit_cap", "toggle_instant_build_patch", "spawn_unit_helper",
   "set_hero_state_helper", "toggle_roe_respawn_helper"]

def unknownCapabilityState : CapabilityState :=
  { available := false, state := "Unknown", reasonCode := "CAPABILITY_REQUIRED_MISSING" }

/-- The `mergeInto` lambda of `MergeCapabilitySnapshots`:
`merged.features[featureId] = state` for each entry of the source snapshot. -/
def mergeInto (merged : CapabilitySnapshot) (source : CapabilitySnapshot) : CapabilitySnapshot :=
  source.foldl (fun acc p => upsertKey p.1 p.2 acc) merged

/-- `EnsureCapabilityEntries`: add an unknown/unavailable entry for every
supported feature the plugins did not report. -/
def ensureStep (acc : CapabilitySnapshot) (featureId : String) : CapabilitySnapshot :=
  if (lookupKey featureId acc).isSome then acc else acc ++ [(featureId, unknownCapabilityState)]

def EnsureCapabilityEntries (snapshot : CapabilitySnapshot) : CapabilitySnapshot :=
  kSupportedFeatures.foldl ensureStep snapshot

def MergeCapabilitySnapshots (economySnapshot globalSnapshot patchSnapshot : CapabilitySnapshot) :
    CapabilitySnapshot :=
  EnsureCapabilityEntries
    (mergeInto (mergeInto (mergeInto [] economySnapshot) globalSnapshot) patchSnapshot)

/-- The capability snapshot `probe_capabilities` folds for the three plugins
the bridge host instantiates. -/
def probeSnapshot : CapabilitySnapshot :=
  MergeCapabilitySnapshots Economy.capabilitySnapshot GlobalToggle.capabilitySnapshot
    BuildPatch.capabilitySnapshot

end BridgeHost

/-! ### Key-multiplicity lemmas for the capability merge -/

def keysOf {α : Type} (l : List (String × α)) : List String := l.map Prod.fst

def countKey {α : Type} (k : String) (l : List (String × α)) : Nat :=
  l.countP fun p => decide (p.1 = k)

theorem mem_keysOf_upsertKey {α : Type} (a k : String) (v : α) (l : List (String × α)) :
    a ∈ keysOf (upsertKey k v l) ↔ a = k ∨ a ∈ keysOf l := by
  induction l with
  | nil => simp [upsertKey, keysOf]
  | cons h t ih =>
    by_cases hk : h.1 = k
    · subst hk
      have hup : upsertKey h.1 v (h :: t) = (h.1, v) :: t := by simp [upsertKey]
      rw [hup]
      simp only [keysOf, List.map_cons, List.mem_cons]
      tauto
    · simp only [upsertKey, hk, if_false, keysOf, List.map_cons, List.mem_cons]
      rw [show (upsertKey k v t).map Prod.fst = keysOf (upsertKey k v t) from rfl, ih]
      simp [keysOf]
      tauto

theorem nodup_keysOf_upsertKey {α : Type} (k : String) (v : α) (l : List (String × α))
    (hl : (keysOf l).Nodup) : (keysOf (upsertKey k v l)).Nodup := by
  induction l with
  | nil => simp [upsertKey, keysOf]
  | cons h t ih =>
    simp only [keysOf, List.map_cons, List.nodup_cons] at hl
    by_cases hk : h.1 = k
    · simp only [upsertKey, hk, if_true, keysOf, List.map_cons, List.nodup_cons]
      exact ⟨hk ▸ hl.1, hl.2⟩
    · simp only [upsertKey, hk, if_false, keysOf, List.map_cons, List.nodup_cons]
      refine ⟨?_, ih hl.2⟩
      rw [show (upsertKey k v t).map Prod.fst = keysOf (upsertKey k v t) from rfl,
        mem_keysOf_upsertKey]
      rintro (rfl | hm)
      · exact hk rfl
      · exact hl.1 hm

theorem nodup_keysOf_mergeInto {α : Type} (m : List (String × α))
    (s : List (String × α)) (hm : (keysOf m).Nodup) :
    (keysOf (s.foldl (fun acc p => upsertKey p.1 p.2 acc) m)).Nodup := by
  induction s generalizing m with
  | nil => simpa using hm
  | cons h t ih => exact ih _ (nodup_keysOf_upsertKey h.1 h.2 m hm)

theorem lookupKey_eq_none_iff {α : Type} (k : String) (l : List (String × α)) :
    lookupKey k l = none ↔ k ∉ keysOf l := by
  induction l with
  | nil => simp [keysOf]
  | cons h t ih =>
    by_cases hk : h.1 = k
    · simp [lookupKey, hk, keysOf]
    · simp [lookupKey, hk, keysOf, Ne.symm hk] at ih ⊢
      exact ih

theorem nodup_keysOf_ensureFold {α : Type} (d : α) (fs : List String)
    (acc : List (String × α)) (hacc : (keysOf acc).Nodup) :
    (keysOf (fs.foldl (fun acc f =>
      if (lookupKey f acc).isSome then acc else acc ++ [(f, d)]) acc)).Nodup := by
  induction fs generalizing acc with
  | nil => simpa using hacc
  | cons f t ih =>
    refine ih _ ?_
    by_cases hf : (lookupKey f acc).isSome
    · simpa [hf] using hacc
    · have hnone : lookupKey f acc = none := by
        cases hh : lookupKey f acc with
        | none => rfl
        | some v => rw [hh] at hf; simp at hf
      have hnot : f ∉ keysOf acc := (lookupKey_eq_none_iff f acc).mp hnone
      have hkeys : keysOf (acc ++ [(f, d)]) = keysOf acc ++ [f] := by simp [keysOf]
      show (keysOf (if (lookupKey f acc).isSome then acc else acc ++ [(f, d)])).Nodup
      rw [if_neg hf, hkeys]
      refine List.Nodup.append hacc (List.nodup_singleton f) ?_
      intro a ha hb
      rw [List.mem_singleton] at hb
      exact hnot (hb ▸ ha)

theorem mem_keysOf_ensureFold_mono {α : Type} (d : α) (fs : List String)
    (acc : List (String × α)) (a : String) (ha : a ∈ keysOf acc) :
    a ∈ keysOf (fs.foldl (fun acc f =>
      if (lookupKey f acc).isSome then acc else acc ++ [(f, d)]) acc) := by
  induction fs generalizing acc with
  | nil => simpa using ha
  | cons f t ih =>
    refine ih _ ?_
    by_cases hf : (lookupKey f acc).isSome <;> simp [hf, keysOf, ha] at *
    · exact ha
    · exact Or.inl ha

theorem mem_keysOf_ensureFold {α : Type} (d : α) (fs : List String) (f : String) :
    ∀ acc : List (String × α), f ∈ fs →
      f ∈ keysOf (fs.foldl (fun acc g =>
        if (lookupKey g acc).isSome then acc else acc ++ [(g, d)]) acc) := by
  induction fs with
  | nil => intro acc hf; cases hf
  | cons g t ih =>
    intro acc hf
    rcases List.mem_cons.mp hf with rfl | hmem
    · simp only [List.foldl_cons]
      apply mem_keysOf_ensureFold_mono
      by_cases hg : (lookupKey f acc).isSome
      · have hns : ¬ lookupKey f acc = none := by
          cases hh : lookupKey f acc with
          | none => rw [hh] at hg; simp at hg
          | some v => simp
        have := (not_iff_not.mpr (lookupKey_eq_none_iff f acc)).mp hns
        simpa [hg] using not_not.mp this
      · simp [hg, keysOf]
    · simp only [List.foldl_cons]
      exact ih _ hmem

theorem countKey_eq_zero_of_not_mem {α : Type} (k : String) (l : List (String × α))
    (h : k ∉ keysOf l) : countKey k l = 0 := by
  induction l with
  | nil => rfl
  | cons p t ih =>
    simp only [keysOf, List.map_cons, List.mem_cons] at h
    push_neg at h
    simp only [countKey, List.countP_cons]
    rw [show t.countP (fun p => decide (p.1 = k)) = countKey k t from rfl, ih h.2]
    simp [Ne.symm h.1]

theorem countKey_eq_one_of_nodup_mem {α : Type} (k : String) (l : List (String × α))
    (hnd : (keysOf l).Nodup) (hmem : k ∈ keysOf l) : countKey k l = 1 := by
  induction l with
  | nil => cases hmem
  | cons p t ih =>
    simp only [keysOf, List.map_cons, List.nodup_cons, List.mem_cons] at hnd hmem
    rcases hmem with rfl | hmem
    · simp only [countKey, List.countP_cons]
      rw [show t.countP (fun q => decide (q.1 = p.1)) = countKey p.1 t from rfl,
        countKey_eq_zero_of_not_mem p.1 t hnd.1]
      simp
    · have hne : p.1 ≠ k := fun h => hnd.1 (h ▸ hmem)
      simp only [countKey, List.countP_cons]
      rw [show t.countP (fun q => decide (q.1 = k)) = countKey k t from rfl, ih hnd.2 hmem]
      simp [hne]

/-! ## Wire codec: JSON string escaping and the flat string-map parser,
from `BridgeHostJson.cpp` -/

namespace HostJson

/-- One character of `EscapeJson`: exactly backslash, double-quote, newline,
carriage return and tab are escaped; every other byte passes through. -/
def EscapeChar (c : Char) : List Char :=
  if c = '\\' then ['\\', '\\']
  else if c = '"' then ['\\', '"']
  else if c = '\n' then ['\\', 'n']
  else if c = '\r' then ['\\', 'r']
  else if c = '\t' then ['\\', 't']
  else [c]

def EscapeJsonL (l : List Char) : List Char := (l.map EscapeChar).flatten

def EscapeJson (s : String) : String := ⟨EscapeJsonL s.data⟩

def diagEntryL (p : String × String) : List Char :=
  '"' :: EscapeJsonL p.1.data ++ '"' :: ':' :: '"' :: EscapeJsonL p.2.data ++ ['"']

def diagEntriesTail : List (String × String) → List Char
  | [] => []
  | e :: rest => diagEntryL e ++ (rest.map fun p => ',' :: diagEntryL p).flatten

/-- `ToDiagnosticsJson`: entries in map iteration order, comma-separated,
keys and values escaped and quoted. -/
def ToDiagnosticsJsonL (m : List (String × String)) : List Char :=
  '{' :: diagEntriesTail m ++ ['}']

def ToDiagnosticsJson (m : List (String × String)) : String := ⟨ToDiagnosticsJsonL m⟩

def isJsonWsChar (c : Char) : Bool := c = ' ' || c = '\t' || c = '\r' || c = '\n'

/-- `std::isspace` for the ASCII range, used by `TrimAsciiWhitespace`. -/
def isCppSpaceChar (c : Char) : Bool :=
  c = ' ' || c = '\t' || c = '\n' || c = '\x0b' || c = '\x0c' || c = '\r'

def skipWs (l : List Char) : List Char := l.dropWhile isJsonWsChar

def trimCppSpace (l : List Char) : List Char :=
  ((l.dropWhile isCppSpaceChar).reverse.dropWhile isCppSpaceChar).reverse

/-- The scanning loop of `FindUnescapedQuote`, carrying the `escaped` flag:
when set, the current character is consumed without inspection. -/
def findUnescapedQuoteAux : Bool → List Char → Option (List Char × List Char)
  | _, [] => none
  | true, c :: rest =>
    match findUnescapedQuoteAux false rest with
    | some (content, r) => some (c :: content, r)
    | none => none
  | false, c :: rest =>
    if c = '\\' then
      match findUnescapedQuoteAux true rest with
      | some (content, r) => some (c :: content, r)
      | none => none
    else if c = '"' then some ([], rest)
    else
      match findUnescapedQuoteAux false rest with
      | some (content, r) => some (c :: content, r)
      | none => none

/-- `FindUnescapedQuote`: scan for the first quote not preceded by an
(unconsumed) backslash; a backslash skips the following character. Returns
the raw characters before the quote — no unescaping — and the rest after it. -/
def FindUnescapedQuote (l : List Char) : Option (List Char × List Char) :=
  findUnescapedQuoteAux false l

/-- `objectJson.find(':', keyEnd + 1)` then step past it. -/
def dropToColon : List Char → Option (List Char)
  | [] => none
  | c :: rest => if c = ':' then some rest else dropToColon rest

/-- `objectJson.find('{')` then step past it. -/
def dropToBrace : List Char → Option (List Char)
  | [] => none
  | c :: rest => if c = '{' then some rest else dropToBrace rest

/-- End of `TryParseFlatStringMapEntry`: skip whitespace, consume one
trailing comma when present. -/
def entryFinish (cs : List Char) : List Char :=
  match skipWs cs with
  | c :: r => if c = ',' then r else c :: r
  | [] => []

/-- `TryParseFlatStringMapEntry`: parse one `"key": value` pair, where the
value is either quoted (taken raw up to the closing unescaped quote) or a
bare token up to `,` / `}` trimmed of surrounding whitespace. -/
def TryParseFlatStringMapEntry (cs : List Char) : Option ((String × String) × List Char) :=
  match skipWs cs with
  | [] => none
  | c :: rest =>
    if c = '}' then none
    else if c = '"' then
      match FindUnescapedQuote rest with
      | none => none
      | some (keyL, afterKey) =>
        match dropToColon afterKey with
        | none => none
        | some afterColon =>
          match skipWs afterColon with
          | [] => none
          | c₂ :: rest₂ =>
            if c₂ = '"' then
              match FindUnescapedQuote rest₂ with
              | none => none
              | some (valL, afterVal) => some ((⟨keyL⟩, ⟨valL⟩), entryFinish afterVal)
            else
              let t := (c₂ :: rest₂).span fun ch => !(ch = ',' || ch = '}')
              some ((⟨keyL⟩, ⟨trimCppSpace t.1⟩), entryFinish t.2)
    else none

/-- `parsed[key] = value` on a `std::map<std::string, std::string>`: ordered
insert, replacing an existing entry with the same key. -/
def insertSorted (k v : String) : List (String × String) → List (String × String)
  | [] => [(k, v)]
  | (k₁, v₁) :: t =>
    if k < k₁ then (k, v) :: (k₁, v₁) :: t
    else if k = k₁ then (k, v) :: t
    else (k₁, v₁) :: insertSorted k v t

/-- The `while (TryParseFlatStringMapEntry(...))` loop; each successful entry
consumes at least one character, so string-length fuel suffices. -/
def parseEntriesGo : Nat → List Char → List (String × String) → List (String × String)
  | 0, _, parsed => parsed
  | fuel + 1, cs, parsed =>
    match TryParseFlatStringMapEntry cs with
    | none => parsed
    | some ((k, v), rest) =>
      parseEntriesGo fuel rest (if k ≠ "" then insertSorted k v parsed else parsed)

def ParseFlatStringMapObjectL (l : List Char) : List (String × String) :=
  match dropToBrace l with
  | none => []
  | some cs => parseEntriesGo (cs.length + 1) cs []

def ParseFlatStringMapObject (s : String) : List (String × String) :=
  ParseFlatStringMapObjectL s.data

/-- A character is one of the five the output escaping rewrites. -/
def isEscapedChar (c : Char) : Bool :=
  c = '\\' || c = '"' || c = '\n' || c = '\r' || c = '\t'

/-! ### Round-trip lemmas for escape-free content -/

theorem EscapeChar_of_not_escaped (c : Char) (h : isEscapedChar c = false) :
    EscapeChar c = [c] := by
  simp only [isEscapedChar, Bool.or_eq_false_iff, decide_eq_false_iff_not] at h
  obtain ⟨⟨⟨⟨h₁, h₂⟩, h₃⟩, h₄⟩, h₅⟩ := h
  simp [EscapeChar, h₁, h₂, h₃, h₄, h₅]

theorem EscapeJsonL_of_clean (l : List Char) (h : ∀ c ∈ l, isEscapedChar c = false) :
    EscapeJsonL l = l := by
  induction l with
  | nil => rfl
  | cons c t ih =>
    have hc := h c (List.mem_cons_self c t)
    have ht := fun d hd => h d (List.mem_cons_of_mem c hd)
    simp only [EscapeJsonL, List.map_cons, List.flatten_cons, EscapeChar_of_not_escaped c hc]
    rw [show (t.map EscapeChar).flatten = EscapeJsonL t from rfl, ih ht]
    rfl

theorem not_backslash_of_not_escaped (c : Char) (h : isEscapedChar c = false) :
    ¬ c = '\\' := by
  simp only [isEscapedChar, Bool.or_eq_false_iff, decide_eq_false_iff_not] at h
  exact h.1.1.1.1

theorem not_quote_of_not_escaped (c : Char) (h : isEscapedChar c = false) :
    ¬ c = '"' := by
  simp only [isEscapedChar, Bool.or_eq_false_iff, decide_eq_false_iff_not] at h
  exact h.1.1.1.2

theorem FindUnescapedQuote_clean (l : List Char) (rest : List Char)
    (h : ∀ c ∈ l, isEscapedChar c = false) :
    FindUnescapedQuote (l ++ '"' :: rest) = some (l, rest) := by
  induction l with
  | nil => rfl
  | cons c t ih =>
    have hc := h c (List.mem_cons_self c t)
    have ht := fun d hd => h d (List.mem_cons_of_mem c hd)
    have hb : (c = '\\') = False := eq_false (not_backslash_of_not_escaped c hc)
    have hq : (c = '"') = False := eq_false (not_quote_of_not_escaped c hc)
    have ihe : findUnescapedQuoteAux false (t ++ '"' :: rest) = some (t, rest) := ih ht
    show findUnescapedQuoteAux false (c :: (t ++ '"' :: rest)) = some (c :: t, rest)
    simp only [findUnescapedQuoteAux, hb, hq, if_false, ihe]

theorem skipWs_cons_of_not_ws (c : Char) (l : List Char) (h : isJsonWsChar c = false) :
    skipWs (c :: l) = c :: l := by
  simp [skipWs, List.dropWhile_cons, h]

theorem TryParseFlatStringMapEntry_encoded (k v : String) (rest : List Char)
    (hk : ∀ c ∈ k.data, isEscapedChar c = false)
    (hv : ∀ c ∈ v.data, isEscapedChar c = false) :
    TryParseFlatStringMapEntry
        ('"' :: (k.data ++ ('"' :: ':' :: '"' :: (v.data ++ ('"' :: rest)))))
      = some ((k, v), entryFinish rest) := by
  have h₁ : skipWs ('"' :: (k.data ++ ('"' :: ':' :: '"' :: (v.data ++ ('"' :: rest)))))
      = '"' :: (k.data ++ ('"' :: ':' :: '"' :: (v.data ++ ('"' :: rest)))) := rfl
  have h₂ : FindUnescapedQuote (k.data ++ '"' :: (':' :: '"' :: (v.data ++ ('"' :: rest))))
      = some (k.data, ':' :: '"' :: (v.data ++ ('"' :: rest))) :=
    FindUnescapedQuote_clean k.data _ hk
  have h₃ : FindUnescapedQuote (v.data ++ '"' :: rest) = some (v.data, rest) :=
    FindUnescapedQuote_clean v.data _ hv
  have h₄ : skipWs ('"' :: (v.data ++ ('"' :: rest))) = '"' :: (v.data ++ ('"' :: rest)) := rfl
  have hdc : ∀ l : List Char, dropToColon (':' :: l) = some l := fun _ => rfl
  have efq : (('"' : Char) = '}') = False := eq_false (by decide)
  have etq : (('"' : Char) = '"') = True := eq_true rfl
  simp only [TryParseFlatStringMapEntry, h₁, efq, etq, if_false, if_true,
    h₂, hdc, h₄, h₃]

theorem entryFinish_comma (r : List Char) : entryFinish (',' :: r) = r := rfl

theorem entryFinish_tail (m : List (String × String)) :
    entryFinish ((m.map fun p => ',' :: diagEntryL p).flatten ++ ['}'])
      = diagEntriesTail m ++ ['}'] := by
  cases m with
  | nil => rfl
  | cons e t =>
    simp only [List.map_cons, List.flatten_cons, diagEntriesTail, List.cons_append,
      List.append_assoc, entryFinish_comma]

theorem length_le_flatten_commaEntries (m : List (String × String)) :
    m.length ≤ ((m.map fun p => ',' :: diagEntryL p).flatten).length := by
  induction m with
  | nil => simp
  | cons e t ih =>
    simp only [List.map_cons, List.flatten_cons, List.length_append, List.length_cons,
      List.length_map]
    omega

theorem length_le_diagEntriesTail (m : List (String × String)) :
    m.length ≤ (diagEntriesTail m).length := by
  cases m with
  | nil => simp [diagEntriesTail]
  | cons e t =>
    have h₁ := length_le_flatten_commaEntries t
    have h₂ : 1 ≤ (diagEntryL e).length := by
      rw [diagEntryL]
      simp only [List.length_append, List.length_cons]
      omega
    rw [show diagEntriesTail (e :: t)
        = diagEntryL e ++ (t.map fun p => ',' :: diagEntryL p).flatten from rfl,
      List.length_append, List.length_cons]
    omega

theorem parseEntriesGo_encoded (m : List (String × String)) :
    ∀ (fuel : Nat) (acc : List (String × String)),
    (∀ p ∈ m, p.1 ≠ "" ∧ (∀ c ∈ p.1.data, isEscapedChar c = false) ∧
      (∀ c ∈ p.2.data, isEscapedChar c = false)) →
    m.length + 1 ≤ fuel →
    parseEntriesGo fuel (diagEntriesTail m ++ ['}']) acc
      = m.foldl (fun acc e => insertSorted e.1 e.2 acc) acc := by
  induction m with
  | nil =>
    intro fuel acc _ hfuel
    match fuel, hfuel with
    | fuel + 1, _ =>
      simp only [diagEntriesTail, List.nil_append, List.foldl_nil, parseEntriesGo]
      rw [show TryParseFlatStringMapEntry ['}'] = none from rfl]
  | cons e t ih =>
    intro fuel acc hclean hfuel
    match fuel, hfuel with
    | fuel + 1, hfuel =>
      obtain ⟨hke, hkc, hvc⟩ := hclean e (List.mem_cons_self e t)
      have hshape : diagEntriesTail (e :: t) ++ ['}']
          = '"' :: (e.1.data ++ ('"' :: ':' :: '"' :: (e.2.data
              ++ ('"' :: ((t.map fun p => ',' :: diagEntryL p).flatten ++ ['}']))))) := by
        simp [diagEntriesTail, diagEntryL, EscapeJsonL_of_clean _ hkc,
          EscapeJsonL_of_clean _ hvc, List.append_assoc]
      rw [hshape]
      simp only [parseEntriesGo,
        TryParseFlatStringMapEntry_encoded e.1 e.2 _ hkc hvc, entryFinish_tail, hke,
        ne_eq, not_false_iff, if_true, List.foldl_cons]
      exact ih fuel _ (fun p hp => hclean p (List.mem_cons_of_mem e hp))
        (by simp at hfuel; omega)

theorem insertSorted_append_of_gt (k v : String) (acc : List (String × String))
    (h : ∀ p ∈ acc, p.1 < k) : insertSorted k v acc = acc ++ [(k, v)] := by
  induction acc with
  | nil => rfl
  | cons p t ih =>
    have hp : p.1 < k := h p (List.mem_cons_self p t)
    have h₁ : ¬ k < p.1 := not_lt_of_gt hp
    have h₂ : ¬ k = p.1 := fun hh => absurd hp (by rw [hh]; exact lt_irrefl _)
    simp only [insertSorted, h₁, if_false, h₂, List.cons_append]
    rw [show insertSorted k v (match p with | (k₁, v₁) => t) = insertSorted k v t from rfl]
    rw [ih fun q hq => h q (List.mem_cons_of_mem p hq)]

theorem foldl_insertSorted_sorted (m : List (String × String)) :
    ∀ acc : List (String × String),
    m.Pairwise (fun a b => a.1 < b.1) →
    (∀ p ∈ acc, ∀ q ∈ m, p.1 < q.1) →
    m.foldl (fun acc e => insertSorted e.1 e.2 acc) acc = acc ++ m := by
  induction m with
  | nil => intro acc _ _; simp
  | cons e t ih =>
    intro acc hsorted hcross
    simp only [List.foldl_cons]
    have hins : insertSorted e.1 e.2 acc = acc ++ [e] := by
      rw [insertSorted_append_of_gt e.1 e.2 acc
        (fun p hp => hcross p hp e (List.mem_cons_self e t))]
    rw [hins, ih (acc ++ [e]) (List.Pairwise.of_cons hsorted) ?_]
    · simp
    · intro p hp q hq
      rcases List.mem_append.mp hp with hpa | hpe
      · exact hcross p hpa q (List.mem_cons_of_mem e hq)
      · rw [List.mem_singleton.mp hpe]
        exact (List.pairwise_cons.mp hsorted).1 q hq

end HostJson

/-! ## Compute lemmas for the memory primitives under a given oracle -/

theorem TryWriteBytesPatchSafe_allOk (w : World) (pid : Int) (addr : Nat) (bs : Bytes)
    (hos : w.os = allOk) (hp : 0 < pid) (ha : addr ≠ 0) (hb : bs ≠ []) :
    TryWriteBytesPatchSafe w pid addr bs
      = { ok := true, mem := writeBytes w.mem addr bs, restoreAttempted := true,
          diagWriteMode := "patch", diagLen := toString bs.length,
          diagRestoreProtectOk := "true" } := by
  have hlen : bs.length ≠ 0 := by
    cases bs with
    | nil => exact absurd rfl hb
    | cons x xs => simp
  have hv : ¬ (pid ≤ 0 ∨ addr = 0 ∨ bs.length = 0) := by
    push_neg
    refine ⟨by omega, ha, ?_⟩
    simpa using hlen
  simp [TryWriteBytesPatchSafe, hv, hos, allOk]
  exact ⟨hp, ha, hb⟩

theorem TryReadBytes_allOk (w : World) (pid : Int) (addr len : Nat)
    (hos : w.os = allOk) (hp : 0 < pid) (ha : addr ≠ 0) (hl : len ≠ 0) :
    TryReadBytes w pid addr len = some (readBytes w.mem addr len) := by
  have hv : ¬ (pid ≤ 0 ∨ addr = 0 ∨ len = 0) := by
    push_neg
    exact ⟨by omega, ha, hl⟩
  simp [TryReadBytes, hv, hos, allOk]

/-- The full restore key computed by a request when its anchor resolves and
parses; the empty string when it does not. Matches the key `execute` builds
internally. -/
def BuildPatch.keyOfRequest (r : PluginRequest) : String :=
  match BuildPatch.FindAnchor r r.featureId with
  | none => ""
  | some anchor =>
    match TryParseAddress anchor.2 with
    | none => ""
    | some addr => BuildPatch.BuildRestoreKey r anchor.1 addr

theorem BuildPatch.keyOfRequest_eq (r : PluginRequest) (anchor : String × String) (addr : Nat)
    (h1 : BuildPatch.FindAnchor r r.featureId = some anchor)
    (h2 : TryParseAddress anchor.2 = some addr) :
    BuildPatch.keyOfRequest r = BuildPatch.BuildRestoreKey r anchor.1 addr := by
  unfold BuildPatch.keyOfRequest
  rw [h1]
  dsimp only
  rw [h2]

/-! ## Claim theorems -/

/-- C2: a build-patch disable request (`enable = false`, `boolValue = false`)
whose restore key has no stored Restore Record fails with reason code
`PATCH_RESTORE_STATE_MISSING`, leaving the plugin state and the target process
(memory and all) untouched — no memory write is attempted. -/
theorem buildPatch_disable_without_record (st : BuildPatch.State) (r : PluginRequest)
    (w : World) (anchor : String × String) (addr : Nat)
    (hf : BuildPatch.IsBuildPatchFeature r.featureId = true)
    (hp : 0 < r.processId)
    (he : r.enable = false) (hb : r.boolValue = false)
    (ha : BuildPatch.FindAnchor r r.featureId = some anchor)
    (hpa : TryParseAddress anchor.2 = some addr)
    (hmiss : lookupKey (BuildPatch.BuildRestoreKey r anchor.1 addr) st.restoreBytesByKey
      = none) :
    BuildPatch.execute st r w
      = (BuildPatch.BuildPatchRestoreStateMissingResult r anchor
          (BuildPatch.BuildRestoreKey r anchor.1 addr), st, w)
    ∧ (BuildPatch.BuildPatchRestoreStateMissingResult r anchor
        (BuildPatch.BuildRestoreKey r anchor.1 addr)).reasonCode
      = "PATCH_RESTORE_STATE_MISSING"
    ∧ (BuildPatch.BuildPatchRestoreStateMissingResult r anchor
        (BuildPatch.BuildRestoreKey r anchor.1 addr)).succeeded = false := by
  refine ⟨?_, rfl, rfl⟩
  have hnp : ¬ r.processId ≤ 0 := by omega
  have hnb : ¬ (r.featureId = "set_unit_cap"
      ∧ BuildPatch.IsUnitCapOutOfBounds r false) := by
    rintro ⟨-, hfalse, -⟩
    simp at hfalse
  simp only [BuildPatch.execute, hf, Bool.not_true, if_false, hnp, hnb, ha, hpa, hmiss,
    he, hb, Bool.or_false, not_false_iff, if_true, not_true, Bool.false_eq_true]

/-- A concrete disable request for `set_unit_cap` used by witnesses. -/
def sampleDisableRequest : PluginRequest :=
  { featureId := "set_unit_cap"
    processId := 1
    anchors := [("unit_cap", "0x10")] }

/-- A concrete world whose memory is all zeroes and whose OS calls succeed. -/
def sampleWorld : World :=
  { mem := fun _ => 0
    os := allOk }

/-- Witness for C2 at a concrete disable request with an empty restore table. -/
theorem buildPatch_disable_without_record_witness :
    (BuildPatch.execute {} sampleDisableRequest sampleWorld).1.reasonCode
      = "PATCH_RESTORE_STATE_MISSING" := by
  have h := buildPatch_disable_without_record {} sampleDisableRequest sampleWorld
    ("unit_cap", "0x10") 16
    (by decide) (by norm_num [sampleDisableRequest]) rfl rfl (by decide) (by decide) rfl
  rw [h.1]
  rfl

/-- C10: when a build-patch disable request finds its Restore Record but the
restoring write fails, the plugin state is unchanged — in particular the
Restore Record is still present for a later retry; the record is deleted only
after the restore write succeeds. -/
theorem buildPatch_failed_restore_keeps_record (st : BuildPatch.State) (r : PluginRequest)
    (w : World) (anchor : String × String) (addr : Nat) (bytes : Bytes)
    (hf : BuildPatch.IsBuildPatchFeature r.featureId = true)
    (hp : 0 < r.processId)
    (he : r.enable = false) (hb : r.boolValue = false)
    (ha : BuildPatch.FindAnchor r r.featureId = some anchor)
    (hpa : TryParseAddress anchor.2 = some addr)
    (hrec : lookupKey (BuildPatch.BuildRestoreKey r anchor.1 addr) st.restoreBytesByKey
      = some bytes)
    (hfail : (TryWriteBytesPatchSafe w r.processId addr bytes).ok = false) :
    BuildPatch.execute st r w
      = (BuildPatch.BuildWriteFailureResult r anchor false
           (TryWriteBytesPatchSafe w r.processId addr bytes), st,
         { w with mem := (TryWriteBytesPatchSafe w r.processId addr bytes).mem })
    ∧ (BuildPatch.execute st r w).1.succeeded = false
    ∧ lookupKey (BuildPatch.BuildRestoreKey r anchor.1 addr)
        (BuildPatch.execute st r w).2.1.restoreBytesByKey = some bytes := by
  have hnp : ¬ r.processId ≤ 0 := by omega
  have hnb : ¬ (r.featureId = "set_unit_cap"
      ∧ BuildPatch.IsUnitCapOutOfBounds r false) := by
    rintro ⟨-, hfalse, -⟩
    simp at hfalse
  have hEq : BuildPatch.execute st r w
      = (BuildPatch.BuildWriteFailureResult r anchor false
           (TryWriteBytesPatchSafe w r.processId addr bytes), st,
         { w with mem := (TryWriteBytesPatchSafe w r.processId addr bytes).mem }) := by
    simp only [BuildPatch.execute, hf, Bool.not_true, if_false, hnp, hnb, ha, hpa, hrec,
      he, hb, Bool.or_false, not_false_iff, if_true, not_true, Bool.false_eq_true, hfail]
  refine ⟨hEq, ?_, ?_⟩
  · rw [hEq]
    rfl
  · rw [hEq]
    exact hrec

/-- Witness for C10: disabling with a cached record while the process write
fails (the OS oracle refuses writes) leaves the record in the table. -/
theorem buildPatch_failed_restore_keeps_record_witness :
    lookupKey "1|set_unit_cap|unit_cap|16"
      (BuildPatch.execute
        { restoreBytesByKey := [("1|set_unit_cap|unit_cap|16", [7, 7, 7, 7])] }
        sampleDisableRequest
        { mem := fun _ => 0
          os := { openOk := true, readOk := true, protectOk := true,
                  writeOk := false, restoreOk := true } }).2.1.restoreBytesByKey
      = some [7, 7, 7, 7] := by
  have h := buildPatch_failed_restore_keeps_record
    { restoreBytesByKey := [("1|set_unit_cap|unit_cap|16", [7, 7, 7, 7])] }
    sampleDisableRequest
    { mem := fun _ => 0
      os := { openOk := true, readOk := true, protectOk := true,
              writeOk := false, restoreOk := true } }
    ("unit_cap", "0x10") 16 [7, 7, 7, 7]
    (by decide) (by norm_num [sampleDisableRequest]) rfl rfl (by decide) (by decide)
    (by decide) (by decide)
  exact h.2.2

/-- C7: out-of-range values are rejected before any memory write.
`set_unit_cap` with `enable = true` and an out-of-bounds `intValue` (for
instance 0 or 100001) fails with `SAFETY_MUTATION_BLOCKED` leaving state and
target process untouched, whatever the anchors; `set_credits` with a negative
`intValue` (for instance -1) fails with `SAFETY_MUTATION_BLOCKED` before any
anchor resolution — the result does not depend on the anchors map at all. -/
theorem bounds_rejected_before_write :
    (∀ (st : BuildPatch.State) (r : PluginRequest) (w : World),
      r.featureId = "set_unit_cap" → 0 < r.processId → r.enable = true →
      (r.intValue < 1 ∨ 100000 < r.intValue) →
      BuildPatch.execute st r w = (BuildPatch.BuildInvalidUnitCapResult r, st, w)
      ∧ (BuildPatch.BuildInvalidUnitCapResult r).reasonCode = "SAFETY_MUTATION_BLOCKED"
      ∧ (BuildPatch.BuildInvalidUnitCapResult r).succeeded = false)
    ∧ (∀ (st : Economy.State) (r : PluginRequest) (w : World),
      r.featureId = "set_credits" → r.intValue < 0 →
      Economy.execute st r w = (Economy.BuildNegativeValueResult r, st, w)
      ∧ (Economy.BuildNegativeValueResult r).reasonCode = "SAFETY_MUTATION_BLOCKED"
      ∧ (Economy.BuildNegativeValueResult r).succeeded = false
      ∧ ∀ anchors₂ : List (String × String),
          Economy.execute st { r with anchors := anchors₂ } w
            = (Economy.BuildNegativeValueResult r, st, w)) := by
  constructor
  · intro st r w hcap hp hen hout
    have hIs : BuildPatch.IsBuildPatchFeature r.featureId = true := by
      simp [BuildPatch.IsBuildPatchFeature, hcap]
    have hnp : ¬ r.processId ≤ 0 := by omega
    have hcond : r.featureId = "set_unit_cap"
        ∧ BuildPatch.IsUnitCapOutOfBounds r (r.enable || r.boolValue) := by
      refine ⟨hcap, ?_, ?_⟩
      · simp [hen]
      · simpa [BuildPatch.kMinUnitCap, BuildPatch.kMaxUnitCap] using hout
    have hIsLit : BuildPatch.IsBuildPatchFeature "set_unit_cap" = true := rfl
    refine ⟨?_, rfl, rfl⟩
    simp only [BuildPatch.execute, hIs, hIsLit, hcap, Bool.not_true, if_false, hnp,
      hcond.2, if_true, not_true, not_false_iff, and_self]
  · intro st r w hcred hneg
    have hne : ¬ r.featureId ≠ "set_credits" := by simp [hcred]
    refine ⟨?_, rfl, rfl, ?_⟩
    · simp only [Economy.execute, hne, if_false, hneg, if_true]
    · intro anchors₂
      have hne₂ : ¬ ({ r with anchors := anchors₂ } : PluginRequest).featureId
          ≠ "set_credits" := by simpa using hne
      have hneg₂ : ({ r with anchors := anchors₂ } : PluginRequest).intValue < 0 := hneg
      have hres : Economy.BuildNegativeValueResult { r with anchors := anchors₂ }
          = Economy.BuildNegativeValueResult r := by
        simp [Economy.BuildNegativeValueResult]
      simp only [Economy.execute, hne₂, if_false, hneg₂, if_true, hres]

/-- Witness for C7: `set_unit_cap` with `intValue = 0` and `set_credits` with
`intValue = -1` are both rejected with `SAFETY_MUTATION_BLOCKED`. -/
theorem bounds_rejected_before_write_witness :
    (BuildPatch.execute {}
        { featureId := "set_unit_cap"
          processId := 1
          enable := true
          intValue := 0
          anchors := [("unit_cap", "0x10")] } sampleWorld).1.reasonCode
      = "SAFETY_MUTATION_BLOCKED"
    ∧ (Economy.execute {}
        { featureId := "set_credits"
          processId := 1
          intValue := -1
          anchors := [("credits", "0x10")] } sampleWorld).1.reasonCode
      = "SAFETY_MUTATION_BLOCKED" := by
  constructor
  · have h := bounds_rejected_before_write.1 {}
      { featureId := "set_unit_cap"
        processId := 1
        enable := true
        intValue := 0
        anchors := [("unit_cap", "0x10")] } sampleWorld rfl (by norm_num) rfl (by norm_num)
    rw [h.1]
    exact h.2.1
  · have h := bounds_rejected_before_write.2 {}
      { featureId := "set_credits"
        processId := 1
        intValue := -1
        anchors := [("credits", "0x10")] } sampleWorld rfl (by norm_num)
    rw [h.1]
    exact h.2.1

/-- C6: for every protected (patch-mode) write whose page protection was
successfully changed, the protection restore is attempted regardless of the
write outcome, its result is reported in the `restoreProtectOk` diagnostic
separately from the write outcome, and the operation as a whole fails whenever
the restore fails — even when the write itself succeeded. -/
theorem patchSafe_restore_reported_and_gates_result (w : World) (pid : Int) (addr : Nat)
    (bs : Bytes) (hp : 0 < pid) (ha : addr ≠ 0) (hb : bs ≠ [])
    (hopen : w.os.openOk = true) (hprot : w.os.protectOk = true) :
    (TryWriteBytesPatchSafe w pid addr bs).restoreAttempted = true
    ∧ (TryWriteBytesPatchSafe w pid addr bs).diagRestoreProtectOk
        = (if w.os.restoreOk then "true" else "false")
    ∧ (TryWriteBytesPatchSafe w pid addr bs).ok = (w.os.writeOk && w.os.restoreOk)
    ∧ (w.os.writeOk = true → w.os.restoreOk = false →
        (TryWriteBytesPatchSafe w pid addr bs).ok = false) := by
  have hlen : bs.length ≠ 0 := by
    cases bs with
    | nil => exact absurd rfl hb
    | cons x xs => simp
  have hv : ¬ (pid ≤ 0 ∨ addr = 0 ∨ bs.length = 0) := by
    push_neg
    refine ⟨by omega, ha, ?_⟩
    simpa using hlen
  refine ⟨?_, ?_, ?_, ?_⟩ <;>
    simp only [TryWriteBytesPatchSafe, hv, if_false, hopen, hprot, Bool.not_true,
      not_false_iff, if_true, not_true]
  · intro hw hr
    simp [hw, hr]

/-- Witness for C6: a write that succeeds while the protection restore fails
yields an overall failure with `restoreProtectOk = "false"`. -/
theorem patchSafe_restore_reported_and_gates_result_witness :
    (TryWriteBytesPatchSafe
      { mem := fun _ => 0
        os := { openOk := true, readOk := true, protectOk := true,
                writeOk := true, restoreOk := false } } 1 16 [0]).ok = false
    ∧ (TryWriteBytesPatchSafe
      { mem := fun _ => 0
        os := { openOk := true, readOk := true, protectOk := true,
                writeOk := true, restoreOk := false } } 1 16 [0]).diagRestoreProtectOk
      = "false" := by
  have h := patchSafe_restore_reported_and_gates_result
    { mem := fun _ => 0
      os := { openOk := true, readOk := true, protectOk := true,
              writeOk := true, restoreOk := false } } 1 16 [0]
    (by norm_num) (by norm_num) (by simp) rfl rfl
  refine ⟨h.2.2.2 rfl rfl, ?_⟩
  rw [h.2.1]
  rfl

/-- C9: address parsing accepts an optional `0x`/`0X` prefix and parses the
remainder as hexadecimal; any non-hexadecimal character anywhere in the
remainder invalidates the parse. Concretely `"0x1A"` and `"1A"` both parse to
26 while `"0x1G"`, `"0x"` and the empty string are rejected. -/
theorem tryParseAddress_spec :
    (∀ l : List Char, TryParseAddressL ('0' :: 'x' :: l)
      = (if l = [] then none else fromCharsHex l))
    ∧ (∀ l : List Char, TryParseAddressL ('0' :: 'X' :: l)
      = (if l = [] then none else fromCharsHex l))
    ∧ (∀ l : List Char, l ≠ [] → stripHexMarker l = l →
      TryParseAddressL l = fromCharsHex l)
    ∧ (∀ (l₁ l₂ : List Char) (c : Char), isHexDigitChar c = false →
      fromCharsHex (l₁ ++ c :: l₂) = none)
    ∧ TryParseAddress "0x1A" = some 26
    ∧ TryParseAddress "1A" = some 26
    ∧ TryParseAddress "0x1G" = none
    ∧ TryParseAddress "0x" = none
    ∧ TryParseAddress "" = none := by
  refine ⟨fun l => rfl, fun l => rfl, ?_, ?_, by decide, by decide, by decide, by decide, rfl⟩
  · intro l hne hstrip
    rw [TryParseAddressL, if_neg hne, hstrip, if_neg hne]
  · intro l₁ l₂ c hc
    simp [fromCharsHex, List.all_append, List.all_cons, hc]

/-- Witness for C9, applying the leftover-character clause at `"1G"`. -/
theorem tryParseAddress_spec_witness :
    fromCharsHex ['1', 'G'] = none ∧ TryParseAddress "0x1G" = none := by
  refine ⟨?_, tryParseAddress_spec.2.2.2.2.2.2.1⟩
  exact tryParseAddress_spec.2.2.2.1 ['1'] [] 'G' (by decide)

/-- Number of bytes a build-patch enable reads and writes for a feature. -/
def BuildPatch.writeLenOf (featureId : String) : Nat :=
  if featureId = "set_unit_cap" then 4 else 1

/-- Byte image a build-patch enable writes for a request. -/
def BuildPatch.encOf (r : PluginRequest) : Bytes :=
  if r.featureId = "set_unit_cap" then
    encodeInt32LE (clampInt r.intValue BuildPatch.kMinUnitCap BuildPatch.kMaxUnitCap)
  else encodeUInt8 1

theorem BuildPatch.length_encOf (r : PluginRequest) :
    (BuildPatch.encOf r).length = BuildPatch.writeLenOf r.featureId := by
  by_cases h : r.featureId = "set_unit_cap" <;>
    simp [BuildPatch.encOf, BuildPatch.writeLenOf, h]

/-- A successful build-patch enable under an all-success oracle: the result
succeeds, the Restore Record table gains the pre-write bytes at the request's
restore key, and memory is overwritten with the encoded value at the anchor. -/
theorem buildPatch_enable_applies (st : BuildPatch.State) (r : PluginRequest) (w : World)
    (anchor : String × String) (addr : Nat)
    (hf : BuildPatch.IsBuildPatchFeature r.featureId = true)
    (hp : 0 < r.processId)
    (hen : (r.enable || r.boolValue) = true)
    (hbounds : r.featureId = "set_unit_cap" → 1 ≤ r.intValue ∧ r.intValue ≤ 100000)
    (ha : BuildPatch.FindAnchor r r.featureId = some anchor)
    (hpa : TryParseAddress anchor.2 = some addr)
    (haddr : addr ≠ 0)
    (hos : w.os = allOk) :
    (BuildPatch.execute st r w).1.succeeded = true
    ∧ (BuildPatch.execute st r w).2.1.restoreBytesByKey
        = upsertKey (BuildPatch.BuildRestoreKey r anchor.1 addr)
            (readBytes w.mem addr (BuildPatch.writeLenOf r.featureId)) st.restoreBytesByKey
    ∧ (BuildPatch.execute st r w).2.2.mem = writeBytes w.mem addr (BuildPatch.encOf r)
    ∧ (BuildPatch.execute st r w).2.2.os = w.os := by
  have hnp : ¬ r.processId ≤ 0 := by omega
  by_cases hcap : r.featureId = "set_unit_cap"
  · have hIsLit : BuildPatch.IsBuildPatchFeature "set_unit_cap" = true := rfl
    have haL : BuildPatch.FindAnchor r "set_unit_cap" = some anchor := by
      rw [← hcap]; exact ha
    have hnotout : ¬ BuildPatch.IsUnitCapOutOfBounds r true := by
      rintro ⟨-, hout⟩
      rcases hbounds hcap with ⟨h1, h2⟩
      simp only [BuildPatch.kMinUnitCap, BuildPatch.kMaxUnitCap] at hout
      omega
    have hread : TryReadBytes w r.processId addr 4 = some (readBytes w.mem addr 4) :=
      TryReadBytes_allOk w _ addr 4 hos hp haddr (by norm_num)
    have henc : encodeInt32LE (clampInt r.intValue BuildPatch.kMinUnitCap
        BuildPatch.kMaxUnitCap) ≠ [] := by simp [encodeInt32LE]
    have hw1 := TryWriteBytesPatchSafe_allOk w r.processId addr _ hos hp haddr henc
    refine ⟨?_, ?_, ?_, ?_⟩ <;>
      simp only [BuildPatch.execute, hcap, hIsLit, eq_self_iff_true, not_true, if_false,
        hnp, true_and, hnotout, haL, hpa, hen, if_true, hread, hw1, not_false_iff,
        BuildPatch.ApplyUnitCapState, BuildPatch.BuildMutationSuccessResult,
        BuildPatch.writeLenOf, BuildPatch.encOf]
  · have hto : r.featureId = "toggle_instant_build_patch" := by
      simpa [BuildPatch.IsBuildPatchFeature, hcap] using hf
    have hIsLit : BuildPatch.IsBuildPatchFeature "toggle_instant_build_patch" = true := rfl
    have haL : BuildPatch.FindAnchor r "toggle_instant_build_patch" = some anchor := by
      rw [← hto]; exact ha
    have hne : (("toggle_instant_build_patch" : String) = "set_unit_cap") = False :=
      eq_false (by decide)
    have hread : TryReadBytes w r.processId addr 1 = some (readBytes w.mem addr 1) :=
      TryReadBytes_allOk w _ addr 1 hos hp haddr (by norm_num)
    have henc : encodeUInt8 1 ≠ [] := by simp [encodeUInt8]
    have hw1 := TryWriteBytesPatchSafe_allOk w r.processId addr _ hos hp haddr henc
    refine ⟨?_, ?_, ?_, ?_⟩ <;>
      simp only [BuildPatch.execute, hto, hIsLit, eq_self_iff_true, not_true, if_false,
        hnp, hne, false_and, haL, hpa, hen, if_true, hread, hw1, not_false_iff,
        BuildPatch.ApplyInstantBuildState, BuildPatch.BuildMutationSuccessResult,
        BuildPatch.writeLenOf, BuildPatch.encOf]

/-- A successful build-patch disable under an all-success oracle when the
Restore Record is present: the result succeeds, the record is removed, and the
stored bytes are written back to the anchor. -/
theorem buildPatch_disable_with_record (st : BuildPatch.State) (r : PluginRequest)
    (w : World) (anchor : String × String) (addr : Nat) (bytes : Bytes)
    (hf : BuildPatch.IsBuildPatchFeature r.featureId = true)
    (hp : 0 < r.processId)
    (he : r.enable = false) (hb : r.boolValue = false)
    (ha : BuildPatch.FindAnchor r r.featureId = some anchor)
    (hpa : TryParseAddress anchor.2 = some addr)
    (hrec : lookupKey (BuildPatch.BuildRestoreKey r anchor.1 addr) st.restoreBytesByKey
      = some bytes)
    (haddr : addr ≠ 0)
    (hbytes : bytes ≠ [])
    (hos : w.os = allOk) :
    (BuildPatch.execute st r w).1.succeeded = true
    ∧ (BuildPatch.execute st r w).2.1.restoreBytesByKey
        = removeKey (BuildPatch.BuildRestoreKey r anchor.1 addr) st.restoreBytesByKey
    ∧ (BuildPatch.execute st r w).2.2.mem = writeBytes w.mem addr bytes := by
  have hnp : ¬ r.processId ≤ 0 := by omega
  have hnotout : ¬ BuildPatch.IsUnitCapOutOfBounds r false := by
    rintro ⟨hfalse, -⟩
    simp at hfalse
  have hw1 := TryWriteBytesPatchSafe_allOk w r.processId addr bytes hos hp haddr hbytes
  by_cases hcap : r.featureId = "set_unit_cap"
  · have hIsLit : BuildPatch.IsBuildPatchFeature "set_unit_cap" = true := rfl
    have haL : BuildPatch.FindAnchor r "set_unit_cap" = some anchor := by
      rw [← hcap]; exact ha
    refine ⟨?_, ?_, ?_⟩ <;>
      simp only [BuildPatch.execute, hcap, hIsLit, eq_self_iff_true, not_true, if_false,
        hnp, true_and, hnotout, haL, hpa, he, hb, Bool.or_false, not_false_iff, if_true,
        Bool.false_eq_true, hrec, hw1,
        BuildPatch.ApplyUnitCapState, BuildPatch.BuildMutationSuccessResult]
  · have hto : r.featureId = "toggle_instant_build_patch" := by
      simpa [BuildPatch.IsBuildPatchFeature, hcap] using hf
    have hIsLit : BuildPatch.IsBuildPatchFeature "toggle_instant_build_patch" = true := rfl
    have haL : BuildPatch.FindAnchor r "toggle_instant_build_patch" = some anchor := by
      rw [← hto]; exact ha
    have hne : (("toggle_instant_build_patch" : String) = "set_unit_cap") = False :=
      eq_false (by decide)
    refine ⟨?_, ?_, ?_⟩ <;>
      simp only [BuildPatch.execute, hto, hIsLit, eq_self_iff_true, not_true, if_false,
        hnp, hne, false_and, haL, hpa, he, hb, Bool.or_false, not_false_iff, if_true,
        Bool.false_eq_true, hrec, hw1,
        BuildPatch.ApplyInstantBuildState, BuildPatch.BuildMutationSuccessResult]

/-- C1: enabling a build-patch feature (with an in-bounds value for
`set_unit_cap`) and then disabling it, both under an all-success oracle,
succeeds both times, writes back to the anchor exactly the bytes read there
immediately before the enabling write — the whole target memory equals its
pre-enable contents byte for byte — and removes the Restore Record for the
key `processId|featureId|anchorKey|address` from the plugin's restore table. -/
theorem buildPatch_enable_disable_roundtrip (st : BuildPatch.State) (r : PluginRequest)
    (w : World) (anchor : String × String) (addr : Nat)
    (hf : BuildPatch.IsBuildPatchFeature r.featureId = true)
    (hp : 0 < r.processId)
    (hen : (r.enable || r.boolValue) = true)
    (hbounds : r.featureId = "set_unit_cap" → 1 ≤ r.intValue ∧ r.intValue ≤ 100000)
    (ha : BuildPatch.FindAnchor r r.featureId = some anchor)
    (hpa : TryParseAddress anchor.2 = some addr)
    (haddr : addr ≠ 0)
    (hos : w.os = allOk) :
    (BuildPatch.execute st r w).1.succeeded = true
    ∧ (BuildPatch.execute (BuildPatch.execute st r w).2.1
        { r with enable := false, boolValue := false }
        (BuildPatch.execute st r w).2.2).1.succeeded = true
    ∧ (∀ a, (BuildPatch.execute (BuildPatch.execute st r w).2.1
        { r with enable := false, boolValue := false }
        (BuildPatch.execute st r w).2.2).2.2.mem a = w.mem a)
    ∧ lookupKey (BuildPatch.BuildRestoreKey r anchor.1 addr)
        (BuildPatch.execute (BuildPatch.execute st r w).2.1
          { r with enable := false, boolValue := false }
          (BuildPatch.execute st r w).2.2).2.1.restoreBytesByKey = none := by
  obtain ⟨s1, st1, m1, o1⟩ :=
    buildPatch_enable_applies st r w anchor addr hf hp hen hbounds ha hpa haddr hos
  have hf₂ : BuildPatch.IsBuildPatchFeature
      ({ r with enable := false, boolValue := false } : PluginRequest).featureId = true := by
    simpa using hf
  have hp₂ : (0 : Int)
      < ({ r with enable := false, boolValue := false } : PluginRequest).processId := by
    simpa using hp
  have ha₂ : BuildPatch.FindAnchor { r with enable := false, boolValue := false }
      ({ r with enable := false, boolValue := false } : PluginRequest).featureId
      = some anchor := by
    simpa [BuildPatch.FindAnchor] using ha
  have hkey₂ : BuildPatch.BuildRestoreKey { r with enable := false, boolValue := false }
      anchor.1 addr = BuildPatch.BuildRestoreKey r anchor.1 addr := by
    simp [BuildPatch.BuildRestoreKey]
  have hrec₂ : lookupKey (BuildPatch.BuildRestoreKey
        { r with enable := false, boolValue := false } anchor.1 addr)
      (BuildPatch.execute st r w).2.1.restoreBytesByKey
      = some (readBytes w.mem addr (BuildPatch.writeLenOf r.featureId)) := by
    rw [hkey₂, st1]
    exact lookupKey_upsertKey_self _ _ _
  have hbytes : readBytes w.mem addr (BuildPatch.writeLenOf r.featureId) ≠ [] := by
    intro hnil
    have hlen := length_readBytes w.mem addr (BuildPatch.writeLenOf r.featureId)
    rw [hnil] at hlen
    by_cases hcap : r.featureId = "set_unit_cap" <;>
      simp [BuildPatch.writeLenOf, hcap] at hlen
  have hos₂ : (BuildPatch.execute st r w).2.2.os = allOk := by rw [o1, hos]
  obtain ⟨s2, st2, m2⟩ :=
    buildPatch_disable_with_record (BuildPatch.execute st r w).2.1
      { r with enable := false, boolValue := false } (BuildPatch.execute st r w).2.2
      anchor addr (readBytes w.mem addr (BuildPatch.writeLenOf r.featureId))
      hf₂ hp₂ rfl rfl ha₂ hpa hrec₂ haddr hbytes hos₂
  refine ⟨s1, s2, ?_, ?_⟩
  · intro a
    rw [m2, m1]
    exact writeBytes_writeBytes_readBytes w.mem addr (BuildPatch.writeLenOf r.featureId)
      (BuildPatch.encOf r) (BuildPatch.length_encOf r) a
  · rw [st2, hkey₂, st1]
    exact lookupKey_removeKey_self _ _

/-- Witness for C1: enable `set_unit_cap` with value 500 at anchor 0x10, then
disable; memory at the anchor is back to its original byte and the record is
gone. -/
theorem buildPatch_enable_disable_roundtrip_witness :
    (BuildPatch.execute {}
        { featureId := "set_unit_cap"
          processId := 1
          enable := true
          intValue := 500
          anchors := [("unit_cap", "0x10")] } sampleWorld).1.succeeded = true
    ∧ (BuildPatch.execute
        (BuildPatch.execute {}
          { featureId := "set_unit_cap"
            processId := 1
            enable := true
            intValue := 500
            anchors := [("unit_cap", "0x10")] } sampleWorld).2.1
        { featureId := "set_unit_cap"
          processId := 1
          enable := false
          intValue := 500
          anchors := [("unit_cap", "0x10")] }
        (BuildPatch.execute {}
          { featureId := "set_unit_cap"
            processId := 1
            enable := true
            intValue := 500
            anchors := [("unit_cap", "0x10")] } sampleWorld).2.2).2.2.mem 16
      = sampleWorld.mem 16 := by
  have h := buildPatch_enable_disable_roundtrip {}
    { featureId := "set_unit_cap"
      processId := 1
      enable := true
      intValue := 500
      anchors := [("unit_cap", "0x10")] } sampleWorld ("unit_cap", "0x10") 16
    (by decide) (by norm_num) rfl (fun _ => by norm_num) (by decide) (by decide)
    (by norm_num) rfl
  exact ⟨h.1, h.2.2.1 16⟩

/-- A freeze-timer toggle request whose anchor value does not parse. -/
def cexToggleRequest : PluginRequest :=
  { featureId := "freeze_timer"
    processId := 1
    boolValue := true
    anchors := [("freeze_timer", "zz")] }

/-- Counterexample to C3 as stated: this `freeze_timer` request fails (its
anchor value `"zz"` does not parse as an address, so no memory operation is
performed), yet the plugin's `freezeTimerEnabled` flag flips from `false` to
`true` — the failed attempt changes prior in-memory state. -/
theorem globalToggle_failed_attempt_changes_state_cex :
    (GlobalToggle.execute {} cexToggleRequest sampleWorld).1.succeeded = false
    ∧ (GlobalToggle.execute {} cexToggleRequest sampleWorld).2.1.freezeTimerEnabled = true
    ∧ ({} : GlobalToggle.State).freezeTimerEnabled = false := by
  refine ⟨rfl, rfl, rfl⟩

/-- C3 amended: a failed execute leaves `EconomyPlugin` state unchanged;
a failed `BuildPatchPlugin` execute leaves its atomic toggle/value flags
unchanged and changes the restore table at most at the request's own restore
key (it gains the captured original bytes when an enable write fails);
a failed `GlobalTogglePlugin` execute leaves the state either unchanged or —
once feature, process and anchor checks have passed, even when the address
parse or the write then fails — with exactly the requested feature's toggle
set to the requested boolean. -/
theorem mutating_failure_state_bound :
    (∀ (st : Economy.State) (r : PluginRequest) (w : World),
      (Economy.execute st r w).1.succeeded = false → (Economy.execute st r w).2.1 = st)
    ∧ (∀ (st : BuildPatch.State) (r : PluginRequest) (w : World),
      (BuildPatch.execute st r w).1.succeeded = false →
        (BuildPatch.execute st r w).2.1.unitCapPatchEnabled = st.unitCapPatchEnabled
        ∧ (BuildPatch.execute st r w).2.1.instantBuildPatchEnabled
            = st.instantBuildPatchEnabled
        ∧ (BuildPatch.execute st r w).2.1.unitCapValue = st.unitCapValue
        ∧ ∀ k, k ≠ BuildPatch.keyOfRequest r →
            lookupKey k (BuildPatch.execute st r w).2.1.restoreBytesByKey
              = lookupKey k st.restoreBytesByKey)
    ∧ (∀ (st : GlobalToggle.State) (r : PluginRequest) (w : World),
      (GlobalToggle.execute st r w).1.succeeded = false →
        (GlobalToggle.execute st r w).2.1 = st
        ∨ (GlobalToggle.execute st r w).2.1
            = GlobalToggle.storeToggle st r.featureId r.boolValue) := by
  refine ⟨?_, ?_, ?_⟩
  · intro st r w
    unfold Economy.execute
    split
    · intro _; rfl
    · split
      · intro _; rfl
      · split
        · intro _; rfl
        · split
          · intro _; rfl
          · split
            · intro _; rfl
            · intro h
              simp [Economy.BuildMutationSuccessResult] at h
  · intro st r w h
    rcases hEq : BuildPatch.execute st r w with ⟨res, st₂, w₂⟩
    rw [hEq] at h
    unfold BuildPatch.execute at hEq
    dsimp only at hEq
    repeat' split at hEq
    all_goals
      injection hEq with hres hrest
    all_goals
      injection hrest with hst hw
    all_goals subst hst
    all_goals subst hres
    all_goals try exact ⟨rfl, rfl, rfl, fun k _ => rfl⟩
    all_goals try simp [BuildPatch.BuildMutationSuccessResult] at h
    all_goals refine ⟨rfl, rfl, rfl, ?_⟩
    all_goals intro k hk
    all_goals rw [BuildPatch.keyOfRequest_eq r _ _ (by assumption) (by assumption)] at hk
    all_goals exact lookupKey_upsertKey_ne _ _ _ _ hk
  · intro st r w h
    rcases hEq : GlobalToggle.execute st r w with ⟨res, st₂, w₂⟩
    rw [hEq] at h
    unfold GlobalToggle.execute at hEq
    dsimp only at hEq
    repeat' split at hEq
    all_goals injection hEq with hres hrest
    all_goals injection hrest with hst hw
    all_goals subst hst
    all_goals first
      | exact Or.inl rfl
      | exact Or.inr rfl

/-- Witness for the amended C3, at the counterexample's failing toggle
request: the resulting state is the stored-toggle state. -/
theorem mutating_failure_state_bound_witness :
    (GlobalToggle.execute {} cexToggleRequest sampleWorld).2.1 = ({} : GlobalToggle.State)
    ∨ (GlobalToggle.execute {} cexToggleRequest sampleWorld).2.1
        = GlobalToggle.storeToggle {} cexToggleRequest.featureId cexToggleRequest.boolValue :=
  mutating_failure_state_bound.2.2 {} cexToggleRequest sampleWorld rfl

/-- A `set_unit_cap` enable request with no anchor entry at all and an
out-of-bounds `intValue`. -/
def cexBoundsRequest : PluginRequest :=
  { featureId := "set_unit_cap"
    processId := 1
    enable := true
    intValue := 0
    anchors := [] }

/-- A `set_credits` request with a non-positive `processId` but an otherwise
valid anchor and value. -/
def cexNoPidRequest : PluginRequest :=
  { featureId := "set_credits"
    processId := 0
    intValue := 5
    anchors := [("credits", "0x10")] }

/-- Counterexample to C4 as stated: (i) a `set_unit_cap` request with no
anchor at all and an out-of-bounds `intValue` receives the bounds error
(`SAFETY_MUTATION_BLOCKED`), not the missing-anchor error, because
`BuildPatchPlugin` checks the bounds before resolving the anchor; (ii) a
`set_credits` request with `processId = 0` receives a write-failure
`SAFETY_MUTATION_BLOCKED`, not the missing-process error, because
`EconomyPlugin` performs no `processId` validation step at all. -/
theorem validation_order_cex :
    (BuildPatch.execute {} cexBoundsRequest sampleWorld).1.reasonCode
        = "SAFETY_MUTATION_BLOCKED"
    ∧ BuildPatch.FindAnchor cexBoundsRequest cexBoundsRequest.featureId = none
    ∧ (Economy.execute {} cexNoPidRequest sampleWorld).1.reasonCode
        = "SAFETY_MUTATION_BLOCKED"
    ∧ cexNoPidRequest.processId ≤ 0
    ∧ ("SAFETY_MUTATION_BLOCKED" : String) ≠ "CAPABILITY_REQUIRED_MISSING" := by
  refine ⟨rfl, rfl, rfl, by decide, by decide⟩

/-- C4 amended: each plugin rejects with the error of the earliest failing
check in its own order. `GlobalTogglePlugin` follows the claimed order
feature → process → anchor → address. `BuildPatchPlugin` checks feature →
process, then validates the `set_unit_cap` bounds before anchor resolution,
then anchor → address. `EconomyPlugin` checks feature, then the value sign
before anchor resolution, then anchor → address, and never validates
`processId`: a non-positive id surfaces only as a write failure with reason
`SAFETY_MUTATION_BLOCKED`, not as the missing-process error. -/
theorem validation_order_per_plugin :
    (∀ (st : GlobalToggle.State) (r : PluginRequest) (w : World),
      (GlobalToggle.IsGlobalToggleFeature r.featureId = false →
        (GlobalToggle.execute st r w).1 = GlobalToggle.BuildUnsupportedFeatureResult r)
      ∧ (GlobalToggle.IsGlobalToggleFeature r.featureId = true → r.processId ≤ 0 →
        (GlobalToggle.execute st r w).1 = GlobalToggle.BuildMissingProcessResult r)
      ∧ (GlobalToggle.IsGlobalToggleFeature r.featureId = true → 0 < r.processId →
          GlobalToggle.FindAnchor r r.featureId = none →
        (GlobalToggle.execute st r w).1 = GlobalToggle.BuildMissingAnchorResult r)
      ∧ (∀ anchor, GlobalToggle.IsGlobalToggleFeature r.featureId = true →
          0 < r.processId →
          GlobalToggle.FindAnchor r r.featureId = some anchor →
          TryParseAddress anchor.2 = none →
        (GlobalToggle.execute st r w).1 = GlobalToggle.BuildInvalidAnchorResult r anchor))
    ∧ (∀ (st : BuildPatch.State) (r : PluginRequest) (w : World),
      (BuildPatch.IsBuildPatchFeature r.featureId = false →
        (BuildPatch.execute st r w).1 = BuildPatch.BuildUnsupportedFeatureResult r)
      ∧ (BuildPatch.IsBuildPatchFeature r.featureId = true → r.processId ≤ 0 →
        (BuildPatch.execute st r w).1 = BuildPatch.BuildMissingProcessResult r)
      ∧ (BuildPatch.IsBuildPatchFeature r.featureId = true → 0 < r.processId →
          r.featureId = "set_unit_cap" →
          BuildPatch.IsUnitCapOutOfBounds r (r.enable || r.boolValue) →
        (BuildPatch.execute st r w).1 = BuildPatch.BuildInvalidUnitCapResult r)
      ∧ (BuildPatch.IsBuildPatchFeature r.featureId = true → 0 < r.processId →
          ¬ (r.featureId = "set_unit_cap"
               ∧ BuildPatch.IsUnitCapOutOfBounds r (r.enable || r.boolValue)) →
          BuildPatch.FindAnchor r r.featureId = none →
        (BuildPatch.execute st r w).1 = BuildPatch.BuildMissingAnchorResult r)
      ∧ (∀ anchor, BuildPatch.IsBuildPatchFeature r.featureId = true →
          0 < r.processId →
          ¬ (r.featureId = "set_unit_cap"
               ∧ BuildPatch.IsUnitCapOutOfBounds r (r.enable || r.boolValue)) →
          BuildPatch.FindAnchor r r.featureId = some anchor →
          TryParseAddress anchor.2 = none →
        (BuildPatch.execute st r w).1 = BuildPatch.BuildInvalidAnchorResult r anchor))
    ∧ (∀ (st : Economy.State) (r : PluginRequest) (w : World),
      (r.featureId ≠ "set_credits" →
        (Economy.execute st r w).1 = Economy.BuildUnsupportedFeatureResult r)
      ∧ (r.featureId = "set_credits" → r.intValue < 0 →
        (Economy.execute st r w).1 = Economy.BuildNegativeValueResult r)
      ∧ (r.featureId = "set_credits" → 0 ≤ r.intValue →
          Economy.FindCreditsAnchor r = none →
        (Economy.execute st r w).1 = Economy.BuildMissingAnchorResult r)
      ∧ (∀ anchor, r.featureId = "set_credits" → 0 ≤ r.intValue →
          Economy.FindCreditsAnchor r = some anchor →
          TryParseAddress anchor.2 = none →
        (Economy.execute st r w).1 = Economy.BuildInvalidAnchorResult r anchor)
      ∧ (∀ anchor addr, r.featureId = "set_credits" → 0 ≤ r.intValue →
          Economy.FindCreditsAnchor r = some anchor →
          TryParseAddress anchor.2 = some addr →
          r.processId ≤ 0 →
        (Economy.execute st r w).1 = Economy.BuildWriteFailureResult r anchor)) := by
  refine ⟨?_, ?_, ?_⟩
  · intro st r w
    refine ⟨?_, ?_, ?_, ?_⟩
    · intro h
      simp [GlobalToggle.execute, h]
    · intro h hp
      simp [GlobalToggle.execute, h, hp]
    · intro h hp ha
      simp [GlobalToggle.execute, h, show ¬ r.processId ≤ 0 by omega, ha]
    · intro anchor h hp ha hparse
      simp [GlobalToggle.execute, h, show ¬ r.processId ≤ 0 by omega, ha, hparse]
  · intro st r w
    refine ⟨?_, ?_, ?_, ?_, ?_⟩
    · intro h
      simp [BuildPatch.execute, h]
    · intro h hp
      simp [BuildPatch.execute, h, hp]
    · intro h hp hcap hoob
      simp [BuildPatch.execute, BuildPatch.IsBuildPatchFeature, h,
            show ¬ r.processId ≤ 0 by omega, hcap, hoob]
    · intro h hp hnb ha
      simp [BuildPatch.execute, h, show ¬ r.processId ≤ 0 by omega, hnb, ha]
    · intro anchor h hp hnb ha hparse
      simp [BuildPatch.execute, h, show ¬ r.processId ≤ 0 by omega, hnb, ha, hparse]
  · intro st r w
    refine ⟨?_, ?_, ?_, ?_, ?_⟩
    · intro h
      simp [Economy.execute, h]
    · intro hcap hneg
      simp [Economy.execute, hcap, hneg]
    · intro hcap hv ha
      simp [Economy.execute, hcap, show ¬ r.intValue < 0 by omega, ha]
    · intro anchor hcap hv ha hparse
      simp [Economy.execute, hcap, show ¬ r.intValue < 0 by omega, ha, hparse]
    · intro anchor addr hcap hv ha hparse hpid
      simp [Economy.execute, tryWriteDataBytes, hcap, show ¬ r.intValue < 0 by omega,
            ha, hparse, hpid]

/-- Witness for the amended C4: at the concrete out-of-bounds
anchor-free `set_unit_cap` request, the bounds error is produced. -/
theorem validation_order_per_plugin_witness :
    (BuildPatch.execute {} cexBoundsRequest sampleWorld).1
      = BuildPatch.BuildInvalidUnitCapResult cexBoundsRequest := by
  have h := validation_order_per_plugin.2.1 {} cexBoundsRequest sampleWorld
  exact h.2.2.1 rfl (by decide) rfl (by decide)

/-- Counterexample to C5 as stated: `spawn_unit_helper` is a declared feature
id of the fixed catalog, yet the merged snapshot a `probe_capabilities`
command produces contains no entry for it at all — the merge only guarantees
entries for the six ids `kSupportedFeatures` dispatches to plugins, not for
the whole catalog. -/
theorem probe_omits_catalog_feature_cex :
    "spawn_unit_helper" ∈ BridgeHost.featureCatalogSpec
    ∧ lookupKey "spawn_unit_helper" BridgeHost.probeSnapshot = none
    ∧ countKey "spawn_unit_helper" BridgeHost.probeSnapshot = 0 := by
  refine ⟨by decide, rfl, by decide⟩

/-- C5 amended: for every probe, whatever the three plugins report, the
merged snapshot enumerates every feature id of `kSupportedFeatures` (the six
dispatchable ids) exactly once; but the catalog's remaining ids — `health`,
`probe_capabilities` and the three helper-invocation features — are never
enumerated by the bridge host's actual probe. -/
theorem probe_enumerates_supported_exactly_once :
    (∀ s₁ s₂ s₃ : CapabilitySnapshot, ∀ f ∈ BridgeHost.kSupportedFeatures,
        countKey f (BridgeHost.MergeCapabilitySnapshots s₁ s₂ s₃) = 1)
    ∧ (∀ f ∈ ["health", "probe_capabilities", "spawn_unit_helper",
              "set_hero_state_helper", "toggle_roe_respawn_helper"],
        f ∈ BridgeHost.featureCatalogSpec
        ∧ lookupKey f BridgeHost.probeSnapshot = none) := by
  constructor
  · intro s₁ s₂ s₃ f hf
    have h0 : (keysOf ([] : CapabilitySnapshot)).Nodup := by simp [keysOf]
    have h1 : (keysOf (BridgeHost.mergeInto [] s₁)).Nodup :=
      nodup_keysOf_mergeInto [] s₁ h0
    have h2 : (keysOf (BridgeHost.mergeInto (BridgeHost.mergeInto [] s₁) s₂)).Nodup :=
      nodup_keysOf_mergeInto _ s₂ h1
    have h3 : (keysOf (BridgeHost.mergeInto
        (BridgeHost.mergeInto (BridgeHost.mergeInto [] s₁) s₂) s₃)).Nodup :=
      nodup_keysOf_mergeInto _ s₃ h2
    have hnd : (keysOf (BridgeHost.MergeCapabilitySnapshots s₁ s₂ s₃)).Nodup :=
      nodup_keysOf_ensureFold BridgeHost.unknownCapabilityState
        BridgeHost.kSupportedFeatures _ h3
    have hmem : f ∈ keysOf (BridgeHost.MergeCapabilitySnapshots s₁ s₂ s₃) :=
      mem_keysOf_ensureFold BridgeHost.unknownCapabilityState
        BridgeHost.kSupportedFeatures f _ hf
    exact countKey_eq_one_of_nodup_mem f _ hnd hmem
  · intro f hf
    fin_cases hf <;> exact ⟨by decide, rfl⟩

/-- Witness for the amended C5 at the three plugins' actual snapshots:
`set_credits` appears exactly once in the merged probe output. -/
theorem probe_enumerates_supported_exactly_once_witness :
    countKey "set_credits" (BridgeHost.MergeCapabilitySnapshots
      Economy.capabilitySnapshot GlobalToggle.capabilitySnapshot
      BuildPatch.capabilitySnapshot) = 1 :=
  probe_enumerates_supported_exactly_once.1 Economy.capabilitySnapshot
    GlobalToggle.capabilitySnapshot BuildPatch.capabilitySnapshot
    "set_credits" (by decide)

/-- Counterexample to C8 as stated: for the one-entry diagnostics map sending
`"k"` to a newline, encoding and then decoding yields the two-character value
backslash-`n`, not the original newline — `TryParseFlatStringMapEntryValue`
returns the raw characters between the quotes and performs no unescaping. -/
theorem json_roundtrip_cex :
    HostJson.ParseFlatStringMapObject (HostJson.ToDiagnosticsJson [("k", "\n")])
      = [("k", "\\n")]
    ∧ [("k", "\\n")] ≠ [("k", "\n")] := by
  refine ⟨rfl, by decide⟩

/-- C8 amended: the output escaping converts exactly backslash, double-quote,
newline, carriage return and tab, and every other character passes through
unchanged; encoding a diagnostics map and decoding it with the flat
string-map parser reproduces exactly the same key/value pairs whenever the
map's keys are non-empty, its keys are strictly sorted (the `std::map`
iteration order), and no key or value contains one of the five escaped
characters — but not in general, since decoding performs no unescaping. -/
theorem json_roundtrip_clean_sorted (m : List (String × String))
    (hsorted : m.Pairwise (fun a b => a.1 < b.1))
    (hclean : ∀ p ∈ m, p.1 ≠ "" ∧ (∀ c ∈ p.1.data, HostJson.isEscapedChar c = false) ∧
      (∀ c ∈ p.2.data, HostJson.isEscapedChar c = false)) :
    HostJson.ParseFlatStringMapObject (HostJson.ToDiagnosticsJson m) = m
    ∧ HostJson.EscapeChar '\\' = ['\\', '\\']
    ∧ HostJson.EscapeChar '"' = ['\\', '"']
    ∧ HostJson.EscapeChar '\n' = ['\\', 'n']
    ∧ HostJson.EscapeChar '\r' = ['\\', 'r']
    ∧ HostJson.EscapeChar '\t' = ['\\', 't']
    ∧ (∀ c, HostJson.isEscapedChar c = false → HostJson.EscapeChar c = [c]) := by
  refine ⟨?_, rfl, rfl, rfl, rfl, rfl, HostJson.EscapeChar_of_not_escaped⟩
  show HostJson.ParseFlatStringMapObjectL (HostJson.ToDiagnosticsJsonL m) = m
  rw [show HostJson.ToDiagnosticsJsonL m
      = '{' :: (HostJson.diagEntriesTail m ++ ['}']) from rfl]
  rw [show HostJson.ParseFlatStringMapObjectL
        ('{' :: (HostJson.diagEntriesTail m ++ ['}']))
      = HostJson.parseEntriesGo ((HostJson.diagEntriesTail m ++ ['}']).length + 1)
          (HostJson.diagEntriesTail m ++ ['}']) [] from rfl]
  have hfuel : m.length + 1 ≤ (HostJson.diagEntriesTail m ++ ['}']).length + 1 := by
    have := HostJson.length_le_diagEntriesTail m
    simp only [List.length_append, List.length_cons, List.length_nil]
    omega
  rw [HostJson.parseEntriesGo_encoded m _ [] hclean hfuel]
  rw [HostJson.foldl_insertSorted_sorted m [] hsorted (by intro p hp q hq; cases hp)]
  simp

/-- Witness for the amended C8 at a concrete clean sorted diagnostics map. -/
theorem json_roundtrip_clean_sorted_witness :
    HostJson.ParseFlatStringMapObject
        (HostJson.ToDiagnosticsJson [("featureId", "set_credits"), ("processId", "42")])
      = [("featureId", "set_credits"), ("processId", "42")] :=
  (json_roundtrip_clean_sorted [("featureId", "set_credits"), ("processId", "42")]
    (by
      refine List.Pairwise.cons ?_ (List.pairwise_singleton _ _)
      intro q hq
      rw [List.mem_singleton.mp hq]
      rw [show (("featureId", "set_credits") : String × String).1 = "featureId" from rfl,
        String.lt_iff_toList_lt]
      decide)
    (by decide)).1

end SwfocExtender
